import Mathlib

/-!
# RobotinoMotionServer: a shallow embedding

Embedding of `robotino_motion/src/RobotinoMotionServer.cpp`.

Conventions of the embedding.

* A C++ `double` is an element of a linearly ordered field `α`; the definitions are
  generic in `α` and run on `ℚ`.  Theorems that need the transcendental functions are
  stated for `α = ℝ`.
* The functions of `<cmath>` that the source calls (`sqrt`, `sin`, `cos`, `atan`) are the
  fields of a record `Libm α` handed to every function that uses them; `fabs x` is `|x|`
  and `pow (x, 2)` is `x ^ 2`.
* The header `RobotinoMotionServer.h` is not available.  Its macros `PI`, `VEL`, `VEL_ANG`
  and its helper `sign` are the fields of a record `Consts α`; the enumerators of its enums
  are the constructors of the inductive types below, with the names used in the `.cpp`
  file.
* `x / y` is the division of the field, so `x / 0 = 0`; the source would produce an
  infinity or a NaN there.  Where a zero divisor matters the divisor itself is a definition
  and is reasoned about directly, and the theorems that depend on the value of a quotient
  assume its divisor non-zero.  The one quotient whose infinite value the source goes on to
  use as a number, `atan (forward_goal_y_abs / forward_goal_x_abs)`, is given that value
  (see `angRes`).
* The two `while` loops of `odomCallback` take a fuel argument and return `none` when it
  runs out.
* One pass through the loop body of `execute` is a function of the members and of what the
  action server answers (`isPreemptRequested`, `isNewGoalAvailable`, the replacement
  goal); it returns the members, how the pass ended and the commands published.
* Other ROS side effects (logging, feedback, `server_.start ()`) are not modelled.
-/

namespace RobotinoMotion

/-! ## Data model -/

/-- Values of `state_`. -/
inductive State where
  | IDLE | MOVING | FINISHED
  deriving DecidableEq, Repr

/-- Values of `movement_type_`. -/
inductive MovementType where
  | TRANSLATIONAL | ROTATIONAL | TRANSLATIONAL_ROTATIONAL | TANGENT
  deriving DecidableEq, Repr

/-- Values of `task_type_`. -/
inductive TaskType where
  | ALIGN | MOVE | COUNT | FOLLOW
  deriving DecidableEq, Repr

/-- Values of `interruption_condition_`. -/
inductive InterruptionCondition where
  | MOVED_DISTANCE | HIGH_OPTICAL_SIGNAL | LOW_OPTICAL_SIGNAL | HIGH_INDUCTIVE_SIGNAL
  | LOW_INDUCTIVE_SIGNAL | CAMERA | OBSTACLE | BUMPER | TIME | SECURED_INFRARED_SIGNAL
  deriving DecidableEq, Repr

/-- Values of `alignment_device_`. -/
inductive AlignmentDevice where
  | NONE | INFRARED | OPTICAL | INDUCTIVE | CAMERAAL | ULTRASONIC | COMPASS
  deriving DecidableEq, Repr

/-- The functions of the C math library called by the source. -/
structure Libm (α : Type) where
  sqrt : α → α
  sin : α → α
  cos : α → α
  atan : α → α

/-- The macros and the helper of the header that the source uses. -/
structure Consts (α : Type) where
  PI : α
  VEL : α
  VEL_ANG : α
  sign : α → α

/-- The fields of `robotino_motion::MotionGoal` read by `acceptNewGoal`. -/
structure MotionGoal (α : Type) where
  move_x : α
  move_y : α
  move_phi : α
  movement_type : Int
  task_type : Int
  interruption_condition : Int
  alignment_device : Int

/-- The part of `nav_msgs::Odometry` read by `odomCallback`: the position and the yaw that
`tf::getYaw` extracts from the orientation. -/
structure Odometry (α : Type) where
  x : α
  y : α
  yaw : α

/-- The three components of `cmd_vel_msg_` written by `setCmdVel`
(`linear.x`, `linear.y`, `angular.z`). -/
structure CmdVel (α : Type) where
  linear_x : α
  linear_y : α
  angular_z : α
  deriving DecidableEq

/-- The three components of `feedback_.state`. -/
structure Feedback (α : Type) where
  d_x : α
  d_y : α
  d_phi : α

/-- The member variables of `RobotinoMotionServer`. -/
structure Server (α : Type) where
  curr_x_ : α
  curr_y_ : α
  curr_phi_ : α
  prev_phi_ : α
  dist_moved_x_ : α
  dist_moved_y_ : α
  dist_rotated_ : α
  forward_goal_x_ : α
  forward_goal_y_ : α
  rotation_goal_ : α
  start_x_ : α
  start_y_ : α
  start_phi_ : α
  odom_set_ : Bool
  state_ : State
  movement_type_ : MovementType
  task_type_ : TaskType
  interruption_condition_ : InterruptionCondition
  alignment_device_ : AlignmentDevice
  min_linear_vel_ : α
  max_linear_vel_ : α
  linear_acc_ : α
  min_angular_vel_ : α
  max_angular_vel_ : α
  angular_acc_ : α
  percentage_ : α
  cmd_vel_msg_ : CmdVel α
  feedback_ : Feedback α

variable {α : Type} [LinearOrderedField α]

/-- The state built by the constructor, with the defaults of `readParameters`. -/
def init : Server α where
  curr_x_ := 0
  curr_y_ := 0
  curr_phi_ := 0
  prev_phi_ := 0
  dist_moved_x_ := 0
  dist_moved_y_ := 0
  dist_rotated_ := 0
  forward_goal_x_ := 0
  forward_goal_y_ := 0
  rotation_goal_ := 0
  start_x_ := 0
  start_y_ := 0
  start_phi_ := 0
  odom_set_ := false
  state_ := State.IDLE
  movement_type_ := MovementType.TRANSLATIONAL
  task_type_ := TaskType.ALIGN
  interruption_condition_ := InterruptionCondition.MOVED_DISTANCE
  alignment_device_ := AlignmentDevice.NONE
  min_linear_vel_ := 0.05
  max_linear_vel_ := 0.1
  linear_acc_ := 0.2
  min_angular_vel_ := 0.04
  max_angular_vel_ := 0.2
  angular_acc_ := 0.2
  percentage_ := 0.1
  cmd_vel_msg_ := ⟨0, 0, 0⟩
  feedback_ := ⟨0, 0, 0⟩

/-! ## acceptNewGoal -/

/-- The `switch (goal->movement_type)` of `acceptNewGoal`; `none` is its `default`. -/
def movementTypeOfInt (n : Int) : Option MovementType :=
  if n = 0 then some MovementType.TRANSLATIONAL
  else if n = 1 then some MovementType.ROTATIONAL
  else if n = 2 then some MovementType.TRANSLATIONAL_ROTATIONAL
  else if n = 3 then some MovementType.TANGENT
  else none

/-- The `switch (goal->task_type)` of `acceptNewGoal`; `none` is its `default`. -/
def taskTypeOfInt (n : Int) : Option TaskType :=
  if n = 0 then some TaskType.ALIGN
  else if n = 1 then some TaskType.MOVE
  else if n = 2 then some TaskType.COUNT
  else if n = 3 then some TaskType.FOLLOW
  else none

/-- The `switch (goal->interruption_condition)` of `acceptNewGoal`; `none` is its
`default`. -/
def interruptionConditionOfInt (n : Int) : Option InterruptionCondition :=
  if n = 0 then some InterruptionCondition.MOVED_DISTANCE
  else if n = 1 then some InterruptionCondition.HIGH_OPTICAL_SIGNAL
  else if n = 2 then some InterruptionCondition.LOW_OPTICAL_SIGNAL
  else if n = 3 then some InterruptionCondition.HIGH_INDUCTIVE_SIGNAL
  else if n = 4 then some InterruptionCondition.LOW_INDUCTIVE_SIGNAL
  else if n = 5 then some InterruptionCondition.CAMERA
  else if n = 6 then some InterruptionCondition.OBSTACLE
  else if n = 7 then some InterruptionCondition.BUMPER
  else if n = 8 then some InterruptionCondition.TIME
  else if n = 9 then some InterruptionCondition.SECURED_INFRARED_SIGNAL
  else none

/-- The `switch (goal->alignment_device)` of `acceptNewGoal`; `none` is its `default`. -/
def alignmentDeviceOfInt (n : Int) : Option AlignmentDevice :=
  if n = 0 then some AlignmentDevice.NONE
  else if n = 1 then some AlignmentDevice.INFRARED
  else if n = 2 then some AlignmentDevice.OPTICAL
  else if n = 3 then some AlignmentDevice.INDUCTIVE
  else if n = 4 then some AlignmentDevice.CAMERAAL
  else if n = 5 then some AlignmentDevice.ULTRASONIC
  else if n = 6 then some AlignmentDevice.COMPASS
  else none

/-- `RobotinoMotionServer::acceptNewGoal`: the returned flag and the members after the
call.  The members are assigned in the order of the source, so a `return false` in a later
`switch` keeps the assignments made before it. -/
def acceptNewGoal (s : Server α) (goal : MotionGoal α) : Bool × Server α :=
  if s.odom_set_ then
    let s1 := { s with
      forward_goal_x_ := goal.move_x
      forward_goal_y_ := goal.move_y
      rotation_goal_ := goal.move_phi }
    match movementTypeOfInt goal.movement_type with
    | none => (false, s1)
    | some mt =>
      let s2 := { s1 with movement_type_ := mt }
      match taskTypeOfInt goal.task_type with
      | none => (false, s2)
      | some tt =>
        let s3 := { s2 with task_type_ := tt }
        match interruptionConditionOfInt goal.interruption_condition with
        | none => (false, s3)
        | some ic =>
          let s4 := { s3 with interruption_condition_ := ic }
          match alignmentDeviceOfInt goal.alignment_device with
          | none => (false, s4)
          | some ad =>
            let s5 := { s4 with
              alignment_device_ := ad
              start_x_ := s4.curr_x_
              start_y_ := s4.curr_y_
              start_phi_ := s4.curr_phi_
              dist_moved_x_ := 0.0
              dist_moved_y_ := 0.0
              dist_rotated_ := 0.0 }
            if |s5.forward_goal_x_| > (0.02 : α) ∨ |s5.forward_goal_y_| > (0.02 : α)
                ∨ |s5.rotation_goal_| > (0.01 : α) then
              (true, { s5 with state_ := State.MOVING })
            else
              (true, { s5 with state_ := State.FINISHED })
  else
    (false, s)

/-! ## odomCallback -/

/-- The first loop of `odomCallback`:
`while (curr_phi_ - prev_phi_ < PI) curr_phi_ += 2 * PI;`
with the value of `curr_phi_` on exit; `none` when the fuel runs out. -/
def unwrapUp (PI prev : α) : Nat → α → Option α
  | 0, _ => none
  | fuel + 1, curr =>
    if curr - prev < PI then unwrapUp PI prev fuel (curr + 2 * PI) else some curr

/-- The second loop of `odomCallback`:
`while (curr_phi_ - prev_phi_ > PI) curr_phi_ -= 2 * PI;`
with the value of `curr_phi_` on exit; `none` when the fuel runs out. -/
def unwrapDown (PI prev : α) : Nat → α → Option α
  | 0, _ => none
  | fuel + 1, curr =>
    if curr - prev > PI then unwrapDown PI prev fuel (curr - 2 * PI) else some curr

/-- `RobotinoMotionServer::odomCallback`, statement by statement.  Each loop gets `fuel`
iterations. -/
def odomCallback (m : Libm α) (c : Consts α) (fuel : Nat) (s : Server α)
    (msg : Odometry α) : Option (Server α) :=
  let s1 := { s with curr_x_ := msg.x, curr_y_ := msg.y, curr_phi_ := msg.yaw }
  let s2 := if s1.odom_set_ = false then
      { s1 with odom_set_ := true, prev_phi_ := s1.curr_phi_ }
    else s1
  match unwrapUp c.PI s2.prev_phi_ fuel s2.curr_phi_ with
  | none => none
  | some phi_up =>
    match unwrapDown c.PI s2.prev_phi_ fuel phi_up with
    | none => none
    | some phi_down =>
      let s3 := { s2 with curr_phi_ := phi_down }
      let s4 := { s3 with dist_rotated_ := s3.dist_rotated_ + (s3.curr_phi_ - s3.prev_phi_) }
      let s5 := { s4 with prev_phi_ := s4.curr_phi_ }
      let s6 := { s5 with dist_moved_x_ := s5.curr_x_ - s5.start_x_ }
      let s7 := { s6 with dist_moved_y_ := s6.curr_y_ - s6.start_y_ }
      let distance_moved_x_temp := s7.dist_moved_x_
      let s8 := { s7 with dist_moved_x_ :=
        s7.dist_moved_x_ * m.cos (-s7.start_phi_) - s7.dist_moved_y_ * m.sin (-s7.start_phi_) }
      let s9 := { s8 with dist_moved_y_ :=
        s8.dist_moved_y_ * m.cos (-s8.start_phi_)
          + distance_moved_x_temp * m.sin (-s8.start_phi_) }
      some s9

/-- A run of `odomCallback` over a list of samples, oldest first. -/
def odomCallbacks (m : Libm α) (c : Consts α) (fuel : Nat) :
    Server α → List (Odometry α) → Option (Server α)
  | s, [] => some s
  | s, msg :: rest =>
    match odomCallback m c fuel s msg with
    | none => none
    | some s1 => odomCallbacks m c fuel s1 rest

/-! ## controlLoop -/

/-- `RobotinoMotionServer::setCmdVel`. -/
def setCmdVel (s : Server α) (vx vy omega : α) : Server α :=
  { s with cmd_vel_msg_ := ⟨vx, vy, omega⟩ }

/-- The local variables `vel_x`, `vel_y`, `vel_phi` of `controlLoop`. -/
structure Vel (α : Type) where
  vel_x : α
  vel_y : α
  vel_phi : α

/-- The argument of `sqrt` in the last branch of `case TRANSLATIONAL`:
`pow (min_linear_vel_, 2) - 2 * linear_acc_ * (dist_driven - (1 - percentage_) * dist_res)`. -/
def decelRadicand (s : Server α) (dist_driven dist_res : α) : α :=
  s.min_linear_vel_ ^ 2 - 2 * s.linear_acc_ * (dist_driven - (1 - s.percentage_) * dist_res)

/-- The three-way `if` of `case TRANSLATIONAL` that assigns `vel`. -/
def translationalSpeed (m : Libm α) (s : Server α) (dist_driven dist_res : α) : α :=
  if dist_driven ≥ 0 ∧ dist_driven ≤ s.percentage_ * dist_res then
    m.sqrt (s.min_linear_vel_ ^ 2 + 2 * s.linear_acc_ * dist_driven)
  else if dist_driven > s.percentage_ * dist_res
      ∧ dist_driven ≤ (1 - s.percentage_) * dist_res then
    s.max_linear_vel_
  else
    m.sqrt (decelRadicand s dist_driven dist_res)

/-- The local `dist_driven` of `controlLoop`:
`sqrt (pow (dist_driven_x, 2) + pow (dist_driven_y, 2))`. -/
def distDriven (m : Libm α) (s : Server α) : α :=
  m.sqrt (|s.dist_moved_x_| ^ 2 + |s.dist_moved_y_| ^ 2)

/-- The local `dist_res` of `controlLoop`:
`sqrt (pow (forward_goal_x_abs, 2) + pow (forward_goal_y_abs, 2))`. -/
def distRes (m : Libm α) (s : Server α) : α :=
  m.sqrt (|s.forward_goal_x_| ^ 2 + |s.forward_goal_y_| ^ 2)

/-- The local `ang_res` of `controlLoop`: `atan (forward_goal_y_abs / forward_goal_x_abs)`.
When `forward_goal_x_abs` is 0 the quotient of the source is `+inf` and `atan` returns its
limit π/2, written `2 * atan 1` here.  (When `forward_goal_y_abs` is 0 too the quotient is
a NaN; `ang_res` is only read in `case TRANSLATIONAL` for a goal in progress, which such a
goal is not.) -/
def angRes (m : Libm α) (s : Server α) : α :=
  if |s.forward_goal_x_| = 0 then 2 * m.atan 1
  else m.atan (|s.forward_goal_y_| / |s.forward_goal_x_|)

/-- The local `d` of `case TRANSLATIONAL_ROTATIONAL`. -/
def coupledD (m : Libm α) (s : Server α) : α :=
  m.sqrt (s.forward_goal_x_ ^ 2 + s.forward_goal_y_ ^ 2)

/-- The local `alpha` of `case TRANSLATIONAL_ROTATIONAL`. -/
def coupledAlpha (m : Libm α) (c : Consts α) (s : Server α) : α :=
  if s.forward_goal_x_ ≠ 0 then m.atan (s.forward_goal_y_ / s.forward_goal_x_)
  else c.sign s.forward_goal_y_ * c.PI / 2

/-- The locals `V_min`, `omega_min` of `case TRANSLATIONAL_ROTATIONAL` at the point where
they are logged. -/
def coupledMin (c : Consts α) (d phi : α) : α × α :=
  let V_min_temp := 0.05 * c.VEL
  let omega_min_temp := 0.05 * c.VEL_ANG
  let V_min := if phi ≠ 0 then omega_min_temp * d / phi else V_min_temp
  let omega_min := if d ≠ 0 then V_min_temp * phi / d else omega_min_temp
  if V_min < V_min_temp then (V_min_temp, omega_min) else (V_min, omega_min_temp)

/-- The locals `V_max`, `omega_max` of `case TRANSLATIONAL_ROTATIONAL` at the point where
they are logged. -/
def coupledMax (c : Consts α) (d phi : α) : α × α :=
  let V_max_temp := c.VEL
  let omega_max_temp := c.VEL_ANG
  let V_max := if phi ≠ 0 then omega_max_temp * d / phi else V_max_temp
  let omega_max := if d ≠ 0 then V_max_temp * phi / d else omega_max_temp
  if V_max > V_max_temp then (V_max_temp, omega_max) else (V_max, omega_max_temp)

/-- The body of the `if` of `case TRANSLATIONAL_ROTATIONAL`. -/
def coupledVel (m : Libm α) (c : Consts α) (s : Server α) : Vel α :=
  let d := coupledD m s
  let alpha := coupledAlpha m c s
  let phi := s.rotation_goal_
  let V_min := (coupledMin c d phi).1
  let omega_min := (coupledMin c d phi).2
  let V_max := (coupledMax c d phi).1
  let omega_max := (coupledMax c d phi).2
  let percentage : α := 20
  let K := if d ≠ 0 then
      (V_min - V_max) / ((percentage / 100) * (1 - percentage / 100) * d ^ 2)
    else 0
  let kapa := if phi ≠ 0 then
      (omega_min - omega_max) / ((percentage / 100) * (1 - percentage / 100) * phi ^ 2)
    else 0
  let s_ := m.sqrt (s.dist_moved_x_ ^ 2 + s.dist_moved_y_ ^ 2)
  let theta := s.dist_rotated_
  let vel :=
    if d = 0 then 0
    else if s_ ≤ d * percentage / 100 ∨ s_ ≥ d * (1 - percentage / 100) then
      K * s_ * (s_ - d) + V_min
    else V_max
  let omega :=
    if phi = 0 then 0
    else if theta ≤ phi * percentage / 100 ∨ theta ≥ phi * (1 - percentage / 100) then
      kapa * theta * (theta - phi) + omega_min
    else omega_max
  ⟨vel * m.cos (alpha - theta), vel * m.sin (alpha - theta), omega⟩

/-- The divisor of the radius in `case TANGENT`: `sin (rotation_goal_abs / 2)`. -/
def tangentDivisor (m : Libm α) (s : Server α) : α :=
  m.sin (|s.rotation_goal_| / 2)

/-- The local `radius` of `case TANGENT`.  On a zero divisor the source gets an infinity
or a NaN where the field gives 0; the theorems that use the value of `radius`, or of
`VEL / radius`, assume the divisors non-zero. -/
def tangentRadius (m : Libm α) (s : Server α) : α :=
  0.5 * m.sqrt (|s.forward_goal_x_| ^ 2 + |s.forward_goal_y_| ^ 2) / tangentDivisor m s

/-- The `switch (movement_type_)` of `controlLoop`: the values of `vel_x`, `vel_y`,
`vel_phi` when the `switch` is left.  Every enumerator has a `case`, so the `default`
is not reached. -/
def switchVel (m : Libm α) (c : Consts α) (s : Server α) : Vel α :=
  let dist_driven_x := |s.dist_moved_x_|
  let dist_driven_y := |s.dist_moved_y_|
  let dist_rotated_abs := |s.dist_rotated_|
  let forward_goal_x_abs := |s.forward_goal_x_|
  let forward_goal_y_abs := |s.forward_goal_y_|
  let rotation_goal_abs := |s.rotation_goal_|
  let dist_driven := distDriven m s
  let dist_res := distRes m s
  let ang_res := angRes m s
  match s.movement_type_ with
  | MovementType.TRANSLATIONAL =>
    if dist_driven_x < forward_goal_x_abs ∨ dist_driven_y < forward_goal_y_abs then
      let vel := translationalSpeed m s dist_driven dist_res
      ⟨vel * m.cos ang_res, vel * m.sin ang_res, 0⟩
    else ⟨0, 0, 0⟩
  | MovementType.ROTATIONAL =>
    if dist_rotated_abs < rotation_goal_abs then ⟨0, 0, c.VEL_ANG⟩ else ⟨0, 0, 0⟩
  | MovementType.TRANSLATIONAL_ROTATIONAL =>
    if dist_driven_x < forward_goal_x_abs ∨ dist_driven_y < forward_goal_y_abs
        ∨ dist_rotated_abs < rotation_goal_abs then
      coupledVel m c s
    else ⟨0, 0, 0⟩
  | MovementType.TANGENT =>
    if dist_driven_x < forward_goal_x_abs ∨ dist_driven_y < forward_goal_y_abs
        ∨ dist_rotated_abs < rotation_goal_abs then
      ⟨c.VEL, 0, c.VEL / tangentRadius m s⟩
    else ⟨0, 0, 0⟩

/-- The three sign corrections that follow the `switch` of `controlLoop`. -/
def signedVel (m : Libm α) (c : Consts α) (s : Server α) : Vel α :=
  let v := switchVel m c s
  let vel_x := if s.forward_goal_x_ < 0 then -v.vel_x else v.vel_x
  let vel_y := if s.forward_goal_y_ < 0 then -v.vel_y else v.vel_y
  let vel_phi := if s.rotation_goal_ < 0 then -v.vel_phi else v.vel_phi
  ⟨vel_x, vel_y, vel_phi⟩

/-- `RobotinoMotionServer::controlLoop`. -/
def controlLoop (m : Libm α) (c : Consts α) (s : Server α) : Server α :=
  let s1 := setCmdVel s 0 0 0
  let s2 := { s1 with feedback_ :=
    ⟨|s1.forward_goal_x_| - |s1.dist_moved_x_|,
     |s1.forward_goal_y_| - |s1.dist_moved_y_|,
     |s1.rotation_goal_| - |s1.dist_rotated_|⟩ }
  let v := signedVel m c s2
  if v.vel_x = 0 ∧ v.vel_y = 0 ∧ v.vel_phi = 0 then
    { s2 with state_ := State.FINISHED }
  else
    setCmdVel s2 v.vel_x v.vel_y v.vel_phi

/-- The functions of `Libm` are the real ones; `sqrt` is only constrained on the
non-negative reals, where the C function returns a number. -/
def Libm.IsReal (m : Libm ℝ) : Prop :=
  (∀ x, 0 ≤ x → m.sqrt x = Real.sqrt x) ∧ m.sin = Real.sin ∧ m.cos = Real.cos
    ∧ m.atan = Real.arctan

/-- A sample of the constants of the header: `PI`, `VEL`, `VEL_ANG` as given and the usual
sign function. -/
def sampleConsts (pi vel vel_ang : α) : Consts α :=
  ⟨pi, vel, vel_ang, fun x => if 0 < x then 1 else if x < 0 then -1 else 0⟩

/-- The constructed server with odometry initialised and a goal
`(move_x, move_y, move_phi)` of type `mt` in progress at displacement
`(moved_x, moved_y, rotated)`. -/
def movingServer (mt : MovementType) (move_x move_y move_phi moved_x moved_y rotated : α) :
    Server α :=
  { (init : Server α) with
    odom_set_ := true
    state_ := State.MOVING
    movement_type_ := mt
    forward_goal_x_ := move_x
    forward_goal_y_ := move_y
    rotation_goal_ := move_phi
    dist_moved_x_ := moved_x
    dist_moved_y_ := moved_y
    dist_rotated_ := rotated }

/-- The members after `odomCallback` when its loops leave `curr_phi_ = phi`: the closed
form of the assignments of `odomCallback`, used to state its lemmas. -/
def odomResult (m : Libm α) (s : Server α) (msg : Odometry α) (phi : α) : Server α :=
  { s with
    curr_x_ := msg.x
    curr_y_ := msg.y
    curr_phi_ := phi
    odom_set_ := true
    prev_phi_ := phi
    dist_rotated_ := s.dist_rotated_ + (phi - (if s.odom_set_ = false then msg.yaw else s.prev_phi_))
    dist_moved_x_ :=
      (msg.x - s.start_x_) * m.cos (-s.start_phi_) - (msg.y - s.start_y_) * m.sin (-s.start_phi_)
    dist_moved_y_ :=
      (msg.y - s.start_y_) * m.cos (-s.start_phi_) + (msg.x - s.start_x_) * m.sin (-s.start_phi_) }

/-- The raw heading of the last sample of a run, `raw` when the run is empty. -/
def lastYaw : α → List (Odometry α) → α
  | raw, [] => raw
  | _, msg :: rest => lastYaw msg.yaw rest

/-! ## execute -/

/-- How one pass through the body of the `while (nh_.ok ())` loop of `execute` ends. -/
inductive LoopExit where
  /-- The end of the body is reached and the loop goes on. -/
  | CONTINUE
  /-- The `return` after `acceptNewGoal (server_.acceptNewGoal ()) == false`: nothing is
  reported to the action server. -/
  | RETURN_REJECTED
  /-- The `return` after `server_.setPreempted ()`. -/
  | PREEMPTED
  /-- The `return` after `server_.setSucceeded (result_)`. -/
  | SUCCEEDED
  deriving DecidableEq, Repr

/-- The members after one pass through the loop body of `execute`, how the pass ended and
the commands handed to `cmd_vel_pub_.publish` during it. -/
structure LoopResult (α : Type) where
  server : Server α
  exit : LoopExit
  published : List (CmdVel α)

/-- The part of the loop body of `execute` from `controlLoop ()` on. -/
def executeTick (m : Libm α) (c : Consts α) (s : Server α) : LoopResult α :=
  let s1 := controlLoop m c s
  if s1.state_ = State.FINISHED then
    let s2 := setCmdVel s1 0 0 0
    ⟨{ s2 with state_ := State.IDLE }, LoopExit.SUCCEEDED, [s2.cmd_vel_msg_]⟩
  else if s1.state_ ≠ State.IDLE then
    ⟨s1, LoopExit.CONTINUE, [s1.cmd_vel_msg_]⟩
  else
    ⟨s1, LoopExit.CONTINUE, []⟩

/-- One pass through the body of the `while` loop of `execute`.  `preempt_requested` is
the value of `server_.isPreemptRequested ()`; `new_goal` is the goal returned by
`server_.acceptNewGoal ()` when `server_.isNewGoalAvailable ()` holds, and `none` when it
does not. -/
def executeLoopBody (m : Libm α) (c : Consts α) (s : Server α) (preempt_requested : Bool)
    (new_goal : Option (MotionGoal α)) : LoopResult α :=
  if preempt_requested then
    match new_goal with
    | some goal =>
      if (acceptNewGoal s goal).1 = false then
        ⟨(acceptNewGoal s goal).2, LoopExit.RETURN_REJECTED, []⟩
      else
        executeTick m c (acceptNewGoal s goal).2
    | none =>
      ⟨setCmdVel { s with state_ := State.IDLE } 0 0 0, LoopExit.PREEMPTED, []⟩
  else
    executeTick m c s

/-- The statements of `execute` after the loop, reached when `nh_.ok ()` fails: the
members and the command published before `server_.setAborted`. -/
def executeShutdown (s : Server α) : Server α × List (CmdVel α) :=
  let s1 := setCmdVel s 0 0 0
  (s1, [s1.cmd_vel_msg_])

/-! ## case TRANSLATIONAL_ROTATIONAL with checked divisions -/

/-- A division that fails on a zero divisor. -/
def checkedDiv (x y : α) : Option α :=
  if y = 0 then none else some (x / y)

/-- The local `alpha` of `case TRANSLATIONAL_ROTATIONAL`, every division by a variable
checked. -/
def coupledAlphaChecked (m : Libm α) (c : Consts α) (s : Server α) : Option α :=
  if s.forward_goal_x_ ≠ 0 then
    (checkedDiv s.forward_goal_y_ s.forward_goal_x_).map m.atan
  else some (c.sign s.forward_goal_y_ * c.PI / 2)

/-- The locals `V_min`, `omega_min` of `case TRANSLATIONAL_ROTATIONAL`, every division
checked. -/
def coupledMinChecked (c : Consts α) (d phi : α) : Option (α × α) :=
  let V_min_temp := 0.05 * c.VEL
  let omega_min_temp := 0.05 * c.VEL_ANG
  (if phi ≠ 0 then checkedDiv (omega_min_temp * d) phi else some V_min_temp).bind fun V_min =>
  (if d ≠ 0 then checkedDiv (V_min_temp * phi) d else some omega_min_temp).bind
    fun omega_min =>
  some (if V_min < V_min_temp then (V_min_temp, omega_min) else (V_min, omega_min_temp))

/-- The locals `V_max`, `omega_max` of `case TRANSLATIONAL_ROTATIONAL`, every division
checked. -/
def coupledMaxChecked (c : Consts α) (d phi : α) : Option (α × α) :=
  let V_max_temp := c.VEL
  let omega_max_temp := c.VEL_ANG
  (if phi ≠ 0 then checkedDiv (omega_max_temp * d) phi else some V_max_temp).bind fun V_max =>
  (if d ≠ 0 then checkedDiv (V_max_temp * phi) d else some omega_max_temp).bind
    fun omega_max =>
  some (if V_max > V_max_temp then (V_max_temp, omega_max) else (V_max, omega_max_temp))

/-- The body of the `if` of `case TRANSLATIONAL_ROTATIONAL` with every division by `d`,
`phi`, `pow (d, 2)`, `pow (phi, 2)` and `forward_goal_x_` checked: `none` as soon as one
of them is executed on a zero divisor.  The divisions by the literal 100 are left as they
are. -/
def coupledVelChecked (m : Libm α) (c : Consts α) (s : Server α) : Option (Vel α) :=
  let d := coupledD m s
  let phi := s.rotation_goal_
  let percentage : α := 20
  (coupledAlphaChecked m c s).bind fun alpha =>
  (coupledMinChecked c d phi).bind fun vmin =>
  (coupledMaxChecked c d phi).bind fun vmax =>
  let V_min := vmin.1
  let omega_min := vmin.2
  let V_max := vmax.1
  let omega_max := vmax.2
  (if d ≠ 0 then
      checkedDiv (V_min - V_max) ((percentage / 100) * (1 - percentage / 100) * d ^ 2)
    else some 0).bind fun K =>
  (if phi ≠ 0 then
      checkedDiv (omega_min - omega_max)
        ((percentage / 100) * (1 - percentage / 100) * phi ^ 2)
    else some 0).bind fun kapa =>
  let s_ := m.sqrt (s.dist_moved_x_ ^ 2 + s.dist_moved_y_ ^ 2)
  let theta := s.dist_rotated_
  let vel :=
    if d = 0 then 0
    else if s_ ≤ d * percentage / 100 ∨ s_ ≥ d * (1 - percentage / 100) then
      K * s_ * (s_ - d) + V_min
    else V_max
  let omega :=
    if phi = 0 then 0
    else if theta ≤ phi * percentage / 100 ∨ theta ≥ phi * (1 - percentage / 100) then
      kapa * theta * (theta - phi) + omega_min
    else omega_max
  some ⟨vel * m.cos (alpha - theta), vel * m.sin (alpha - theta), omega⟩

/-! ## The blend of case TRANSLATIONAL_ROTATIONAL -/

/-- The local `K` of `case TRANSLATIONAL_ROTATIONAL` as a function of `d` and `phi`. -/
def coupledK (c : Consts α) (d phi : α) : α :=
  if d ≠ 0 then
    ((coupledMin c d phi).1 - (coupledMax c d phi).1)
      / (((20 : α) / 100) * (1 - (20 : α) / 100) * d ^ 2)
  else 0

/-- The local `kapa` of `case TRANSLATIONAL_ROTATIONAL` as a function of `d` and `phi`. -/
def coupledKapa (c : Consts α) (d phi : α) : α :=
  if phi ≠ 0 then
    ((coupledMin c d phi).2 - (coupledMax c d phi).2)
      / (((20 : α) / 100) * (1 - (20 : α) / 100) * phi ^ 2)
  else 0

/-- The local `vel` of `case TRANSLATIONAL_ROTATIONAL` as a function of `d`, `phi` and the
driven distance `s`. -/
def coupledLinearSpeed (c : Consts α) (d phi s_ : α) : α :=
  if d = 0 then 0
  else if s_ ≤ d * 20 / 100 ∨ s_ ≥ d * (1 - (20 : α) / 100) then
    coupledK c d phi * s_ * (s_ - d) + (coupledMin c d phi).1
  else (coupledMax c d phi).1

/-- The local `omega` of `case TRANSLATIONAL_ROTATIONAL` as a function of `d`, `phi` and
the rotation `theta`. -/
def coupledAngularSpeed (c : Consts α) (d phi theta : α) : α :=
  if phi = 0 then 0
  else if theta ≤ phi * 20 / 100 ∨ theta ≥ phi * (1 - (20 : α) / 100) then
    coupledKapa c d phi * theta * (theta - phi) + (coupledMin c d phi).2
  else (coupledMax c d phi).2

/-! ## Concrete inputs -/

/-- The constructed server after its first odometry sample at the origin. -/
def readyServer : Server ℚ := { (init : Server ℚ) with odom_set_ := true }

/-- A goal whose `movement_type` has no `case`. -/
def badMovementGoal : MotionGoal ℚ := ⟨1, 0, 0, 9, 0, 0, 0⟩

/-- A translational goal below the thresholds of `acceptNewGoal`. -/
def tinyGoal : MotionGoal ℚ := ⟨0.01, 0, 0, 0, 0, 0, 0⟩

/-! ## acceptNewGoal: lemmas -/

theorem movementTypeOfInt_isSome (n : Int) :
    (movementTypeOfInt n).isSome = true ↔ 0 ≤ n ∧ n ≤ 3 := by
  unfold movementTypeOfInt
  split_ifs <;> simp <;> omega

theorem taskTypeOfInt_isSome (n : Int) :
    (taskTypeOfInt n).isSome = true ↔ 0 ≤ n ∧ n ≤ 3 := by
  unfold taskTypeOfInt
  split_ifs <;> simp <;> omega

theorem interruptionConditionOfInt_isSome (n : Int) :
    (interruptionConditionOfInt n).isSome = true ↔ 0 ≤ n ∧ n ≤ 9 := by
  unfold interruptionConditionOfInt
  split_ifs <;> simp <;> omega

theorem alignmentDeviceOfInt_isSome (n : Int) :
    (alignmentDeviceOfInt n).isSome = true ↔ 0 ≤ n ∧ n ≤ 6 := by
  unfold alignmentDeviceOfInt
  split_ifs <;> simp <;> omega

/-- The flag returned by `acceptNewGoal` is the conjunction of its five checks. -/
theorem acceptNewGoal_fst (s : Server α) (goal : MotionGoal α) :
    (acceptNewGoal s goal).1 =
      (s.odom_set_ && (movementTypeOfInt goal.movement_type).isSome
        && (taskTypeOfInt goal.task_type).isSome
        && (interruptionConditionOfInt goal.interruption_condition).isSome
        && (alignmentDeviceOfInt goal.alignment_device).isSome) := by
  unfold acceptNewGoal
  cases s.odom_set_ <;> simp
  cases movementTypeOfInt goal.movement_type <;> simp
  cases taskTypeOfInt goal.task_type <;> simp
  cases interruptionConditionOfInt goal.interruption_condition <;> simp
  cases alignmentDeviceOfInt goal.alignment_device <;> simp
  split_ifs <;> rfl

/-- The members after an accepted goal. -/
theorem acceptNewGoal_snd_of_accepted (s : Server α) (goal : MotionGoal α)
    (h : (acceptNewGoal s goal).1 = true) :
    ∃ mt tt ic ad,
      movementTypeOfInt goal.movement_type = some mt ∧ taskTypeOfInt goal.task_type = some tt
      ∧ interruptionConditionOfInt goal.interruption_condition = some ic
      ∧ alignmentDeviceOfInt goal.alignment_device = some ad
      ∧ (acceptNewGoal s goal).2 =
        { s with
          forward_goal_x_ := goal.move_x
          forward_goal_y_ := goal.move_y
          rotation_goal_ := goal.move_phi
          movement_type_ := mt
          task_type_ := tt
          interruption_condition_ := ic
          alignment_device_ := ad
          start_x_ := s.curr_x_
          start_y_ := s.curr_y_
          start_phi_ := s.curr_phi_
          dist_moved_x_ := 0
          dist_moved_y_ := 0
          dist_rotated_ := 0
          state_ := if |goal.move_x| > (0.02 : α) ∨ |goal.move_y| > (0.02 : α)
              ∨ |goal.move_phi| > (0.01 : α) then State.MOVING else State.FINISHED } := by
  rw [acceptNewGoal_fst] at h
  simp only [Bool.and_eq_true, Option.isSome_iff_exists] at h
  obtain ⟨⟨⟨⟨ho, mt, hmt⟩, tt, htt⟩, ic, hic⟩, ad, had⟩ := h
  refine ⟨mt, tt, ic, ad, hmt, htt, hic, had, ?_⟩
  unfold acceptNewGoal
  simp only [ho, hmt, htt, hic, had, if_true]
  split_ifs <;> simp <;> norm_num

/-! ## Claims about acceptNewGoal -/

/-- C1, as stated, fails: with odometry initialised, a goal rejected for its
`movement_type` (9) has already overwritten `forward_goal_x_` (0 before the call, 1
after it). -/
theorem acceptNewGoal_rejected_overwrites_goal :
    (acceptNewGoal readyServer badMovementGoal).1 = false
    ∧ readyServer.forward_goal_x_ = 0
    ∧ (acceptNewGoal readyServer badMovementGoal).2.forward_goal_x_ = 1 := by
  decide

/-- C1, amended: a rejected goal leaves the origin `start_x_`, `start_y_`, `start_phi_`,
the displacement `dist_moved_x_`, `dist_moved_y_`, `dist_rotated_`, `state_` and
`alignment_device_` unchanged, and leaves every member unchanged when odometry is not
initialised.  When odometry is initialised the targets `forward_goal_x_`,
`forward_goal_y_`, `rotation_goal_` hold the values of the rejected goal, and each of
`movement_type_`, `task_type_`, `interruption_condition_` is overwritten exactly when its
own field and the fields checked before it are in range. -/
theorem acceptNewGoal_rejected_frame (s : Server α) (goal : MotionGoal α)
    (h : (acceptNewGoal s goal).1 = false) :
    ((acceptNewGoal s goal).2.start_x_ = s.start_x_
      ∧ (acceptNewGoal s goal).2.start_y_ = s.start_y_
      ∧ (acceptNewGoal s goal).2.start_phi_ = s.start_phi_)
    ∧ ((acceptNewGoal s goal).2.dist_moved_x_ = s.dist_moved_x_
      ∧ (acceptNewGoal s goal).2.dist_moved_y_ = s.dist_moved_y_
      ∧ (acceptNewGoal s goal).2.dist_rotated_ = s.dist_rotated_)
    ∧ (acceptNewGoal s goal).2.state_ = s.state_
    ∧ (acceptNewGoal s goal).2.alignment_device_ = s.alignment_device_
    ∧ (s.odom_set_ = false → (acceptNewGoal s goal).2 = s)
    ∧ (s.odom_set_ = true →
        ((acceptNewGoal s goal).2.forward_goal_x_ = goal.move_x
          ∧ (acceptNewGoal s goal).2.forward_goal_y_ = goal.move_y
          ∧ (acceptNewGoal s goal).2.rotation_goal_ = goal.move_phi)
        ∧ (acceptNewGoal s goal).2.movement_type_
            = (movementTypeOfInt goal.movement_type).getD s.movement_type_
        ∧ (acceptNewGoal s goal).2.task_type_
            = (if (movementTypeOfInt goal.movement_type).isSome then
                (taskTypeOfInt goal.task_type).getD s.task_type_
              else s.task_type_)
        ∧ (acceptNewGoal s goal).2.interruption_condition_
            = (if (movementTypeOfInt goal.movement_type).isSome
                  ∧ (taskTypeOfInt goal.task_type).isSome then
                (interruptionConditionOfInt goal.interruption_condition).getD
                  s.interruption_condition_
              else s.interruption_condition_)) := by
  rw [acceptNewGoal_fst] at h
  unfold acceptNewGoal
  cases ho : s.odom_set_
  · simp
  · rw [ho] at h
    cases hmt : movementTypeOfInt goal.movement_type
    · simp
    · rw [hmt] at h
      cases htt : taskTypeOfInt goal.task_type
      · simp
      · rw [htt] at h
        cases hic : interruptionConditionOfInt goal.interruption_condition
        · simp
        · rw [hic] at h
          cases had : alignmentDeviceOfInt goal.alignment_device
          · simp
          · rw [had] at h
            simp at h

/-- Witness of `acceptNewGoal_rejected_frame`: the goal with `movement_type` 9 on the
ready server. -/
theorem acceptNewGoal_rejected_frame_witness :
    (acceptNewGoal readyServer badMovementGoal).1 = false
    ∧ (acceptNewGoal readyServer badMovementGoal).2.state_ = readyServer.state_
    ∧ (acceptNewGoal readyServer badMovementGoal).2.forward_goal_x_ = badMovementGoal.move_x :=
  ⟨by decide,
   (acceptNewGoal_rejected_frame readyServer badMovementGoal (by decide)).2.2.1,
   ((acceptNewGoal_rejected_frame readyServer badMovementGoal (by decide)).2.2.2.2.2
      (by decide)).1.1⟩

/-- C2: `acceptNewGoal` returns true exactly when odometry is initialised and the four
enum fields of the goal are in range (`movement_type` and `task_type` in 0..3,
`interruption_condition` in 0..9, `alignment_device` in 0..6); `move_x`, `move_y`,
`move_phi` do not occur in the condition. -/
theorem acceptNewGoal_true_iff (s : Server α) (goal : MotionGoal α) :
    (acceptNewGoal s goal).1 = true ↔
      s.odom_set_ = true
      ∧ (0 ≤ goal.movement_type ∧ goal.movement_type ≤ 3)
      ∧ (0 ≤ goal.task_type ∧ goal.task_type ≤ 3)
      ∧ (0 ≤ goal.interruption_condition ∧ goal.interruption_condition ≤ 9)
      ∧ (0 ≤ goal.alignment_device ∧ goal.alignment_device ≤ 6) := by
  rw [acceptNewGoal_fst]
  simp only [Bool.and_eq_true, movementTypeOfInt_isSome, taskTypeOfInt_isSome,
    interruptionConditionOfInt_isSome, alignmentDeviceOfInt_isSome]
  tauto

/-- C3: after an accepted goal the state is FINISHED exactly when `|move_x| ≤ 0.02`,
`|move_y| ≤ 0.02` and `|move_phi| ≤ 0.01` all hold and MOVING otherwise; the displacement
is (0, 0, 0), the origin is the current pose, and the current pose is the one before the
call. -/
theorem acceptNewGoal_accepted_state (s : Server α) (goal : MotionGoal α)
    (h : (acceptNewGoal s goal).1 = true) :
    ((acceptNewGoal s goal).2.state_ = State.FINISHED ↔
        |goal.move_x| ≤ (0.02 : α) ∧ |goal.move_y| ≤ (0.02 : α) ∧ |goal.move_phi| ≤ (0.01 : α))
    ∧ ((acceptNewGoal s goal).2.state_ = State.MOVING ↔
        ¬ (|goal.move_x| ≤ (0.02 : α) ∧ |goal.move_y| ≤ (0.02 : α)
            ∧ |goal.move_phi| ≤ (0.01 : α)))
    ∧ ((acceptNewGoal s goal).2.dist_moved_x_ = 0
        ∧ (acceptNewGoal s goal).2.dist_moved_y_ = 0
        ∧ (acceptNewGoal s goal).2.dist_rotated_ = 0)
    ∧ ((acceptNewGoal s goal).2.start_x_ = (acceptNewGoal s goal).2.curr_x_
        ∧ (acceptNewGoal s goal).2.start_y_ = (acceptNewGoal s goal).2.curr_y_
        ∧ (acceptNewGoal s goal).2.start_phi_ = (acceptNewGoal s goal).2.curr_phi_)
    ∧ ((acceptNewGoal s goal).2.curr_x_ = s.curr_x_
        ∧ (acceptNewGoal s goal).2.curr_y_ = s.curr_y_
        ∧ (acceptNewGoal s goal).2.curr_phi_ = s.curr_phi_) := by
  obtain ⟨mt, tt, ic, ad, -, -, -, -, hs⟩ := acceptNewGoal_snd_of_accepted s goal h
  rw [hs]
  simp only [and_self, and_true]
  by_cases hc : |goal.move_x| > (0.02 : α) ∨ |goal.move_y| > (0.02 : α)
      ∨ |goal.move_phi| > (0.01 : α)
  · have hn : ¬ (|goal.move_x| ≤ (0.02 : α) ∧ |goal.move_y| ≤ (0.02 : α)
        ∧ |goal.move_phi| ≤ (0.01 : α)) := by
      rintro ⟨h1, h2, h3⟩
      rcases hc with hc | hc | hc
      · exact absurd h1 (not_le.mpr hc)
      · exact absurd h2 (not_le.mpr hc)
      · exact absurd h3 (not_le.mpr hc)
    simp [hc, hn]
  · have hy : |goal.move_x| ≤ (0.02 : α) ∧ |goal.move_y| ≤ (0.02 : α)
        ∧ |goal.move_phi| ≤ (0.01 : α) := by
      simp only [not_or, not_lt, gt_iff_lt] at hc
      exact hc
    simp [hc, hy]

/-- Witness of `acceptNewGoal_accepted_state`: a goal of 0.01 m on the ready server is
accepted and finishes at once. -/
theorem acceptNewGoal_accepted_state_witness :
    (acceptNewGoal readyServer tinyGoal).1 = true
    ∧ (acceptNewGoal readyServer tinyGoal).2.state_ = State.FINISHED :=
  ⟨by rw [acceptNewGoal_fst]; decide,
   (acceptNewGoal_accepted_state readyServer tinyGoal (by rw [acceptNewGoal_fst]; decide)).1.mpr
     (by norm_num [tinyGoal, abs_le])⟩

/-! ## odomCallback: lemmas -/

theorem unwrapUp_mono (PI prev : α) : ∀ (fuel : ℕ) (curr r : α),
    unwrapUp PI prev fuel curr = some r → ∀ n, unwrapUp PI prev (fuel + n) curr = some r := by
  intro fuel
  induction fuel with
  | zero => intro curr r h; simp [unwrapUp] at h
  | succ f ih =>
    intro curr r h n
    rw [Nat.add_right_comm]
    unfold unwrapUp at h ⊢
    split_ifs at h ⊢ with hc
    · exact ih _ _ h n
    · exact h

theorem unwrapDown_mono (PI prev : α) : ∀ (fuel : ℕ) (curr r : α),
    unwrapDown PI prev fuel curr = some r →
      ∀ n, unwrapDown PI prev (fuel + n) curr = some r := by
  intro fuel
  induction fuel with
  | zero => intro curr r h; simp [unwrapDown] at h
  | succ f ih =>
    intro curr r h n
    rw [Nat.add_right_comm]
    unfold unwrapDown at h ⊢
    split_ifs at h ⊢ with hc
    · exact ih _ _ h n
    · exact h

/-- The first loop stops: after some number `k` of additions of `2 * PI` the difference is
at least `PI`, and below `3 * PI` when the body ran at all. -/
theorem unwrapUp_spec [Archimedean α] (PI prev : α) (hPI : 0 < PI) (curr : α) :
    ∃ k : ℕ, (∀ fuel, k < fuel → unwrapUp PI prev fuel curr = some (curr + k * (2 * PI)))
      ∧ PI ≤ curr + k * (2 * PI) - prev
      ∧ (k = 0 ∨ curr + k * (2 * PI) - prev < 3 * PI) := by
  obtain ⟨n, hn⟩ := Archimedean.arch (PI - (curr - prev)) (by linarith : (0 : α) < 2 * PI)
  induction n generalizing curr with
  | zero =>
    simp only [zero_smul] at hn
    refine ⟨0, ?_, by simp; linarith, Or.inl rfl⟩
    intro fuel hf
    obtain ⟨f, rfl⟩ := Nat.exists_eq_succ_of_ne_zero (Nat.pos_iff_ne_zero.mp hf)
    have : ¬ curr - prev < PI := by linarith
    simp [unwrapUp, this]
  | succ n ih =>
    by_cases hc : curr - prev < PI
    · have hn2 : PI - (curr + 2 * PI - prev) ≤ n • (2 * PI) := by
        rw [succ_nsmul] at hn
        linarith
      obtain ⟨k, hk1, hk2, hk3⟩ := ih (curr + 2 * PI) hn2
      refine ⟨k + 1, ?_, ?_, ?_⟩
      · intro fuel hf
        have hne : fuel ≠ 0 := by omega
        obtain ⟨f, rfl⟩ := Nat.exists_eq_succ_of_ne_zero hne
        have hkf : k < f := by omega
        rw [unwrapUp, if_pos hc, hk1 f hkf]
        congr 1
        push_cast
        ring
      · push_cast
        linarith
      · right
        push_cast
        rcases hk3 with hk3 | hk3
        · subst hk3
          simp only [Nat.cast_zero, zero_mul, zero_add]
          linarith
        · linarith
    · refine ⟨0, ?_, by simp; linarith, Or.inl rfl⟩
      intro fuel hf
      obtain ⟨f, rfl⟩ := Nat.exists_eq_succ_of_ne_zero (Nat.pos_iff_ne_zero.mp hf)
      simp [unwrapUp, hc]

/-- The second loop stops: after some number `k` of subtractions of `2 * PI` the
difference is at most `PI`, and above `-PI` when the body ran at all. -/
theorem unwrapDown_spec [Archimedean α] (PI prev : α) (hPI : 0 < PI) (curr : α) :
    ∃ k : ℕ, (∀ fuel, k < fuel → unwrapDown PI prev fuel curr = some (curr - k * (2 * PI)))
      ∧ curr - k * (2 * PI) - prev ≤ PI
      ∧ (k = 0 ∨ -PI < curr - k * (2 * PI) - prev) := by
  obtain ⟨n, hn⟩ := Archimedean.arch (curr - prev - PI) (by linarith : (0 : α) < 2 * PI)
  induction n generalizing curr with
  | zero =>
    simp only [zero_smul] at hn
    refine ⟨0, ?_, by simp; linarith, Or.inl rfl⟩
    intro fuel hf
    obtain ⟨f, rfl⟩ := Nat.exists_eq_succ_of_ne_zero (Nat.pos_iff_ne_zero.mp hf)
    have : ¬ curr - prev > PI := by
      simp only [gt_iff_lt, not_lt]
      linarith
    simp only [unwrapDown, this, if_false]
    simp
  | succ n ih =>
    by_cases hc : curr - prev > PI
    · have hn2 : curr - 2 * PI - prev - PI ≤ n • (2 * PI) := by
        rw [succ_nsmul] at hn
        linarith
      obtain ⟨k, hk1, hk2, hk3⟩ := ih (curr - 2 * PI) hn2
      refine ⟨k + 1, ?_, ?_, ?_⟩
      · intro fuel hf
        have hne : fuel ≠ 0 := by omega
        obtain ⟨f, rfl⟩ := Nat.exists_eq_succ_of_ne_zero hne
        have hkf : k < f := by omega
        rw [unwrapDown, if_pos hc, hk1 f hkf]
        congr 1
        push_cast
        ring
      · push_cast
        linarith
      · right
        push_cast
        rcases hk3 with hk3 | hk3
        · subst hk3
          simp only [Nat.cast_zero, zero_mul, sub_zero]
          have : PI < curr - prev := hc
          linarith
        · linarith
    · refine ⟨0, ?_, by simp only [gt_iff_lt, not_lt] at hc; simp; linarith, Or.inl rfl⟩
      intro fuel hf
      obtain ⟨f, rfl⟩ := Nat.exists_eq_succ_of_ne_zero (Nat.pos_iff_ne_zero.mp hf)
      simp only [unwrapDown, hc, if_false]
      simp

/-- The value returned by `odomCallback` in terms of its two loops. -/
theorem odomCallback_eq (m : Libm α) (c : Consts α) (fuel : ℕ) (s : Server α)
    (msg : Odometry α) :
    odomCallback m c fuel s msg =
      (unwrapUp c.PI (if s.odom_set_ = false then msg.yaw else s.prev_phi_) fuel msg.yaw).bind
        (fun a =>
          (unwrapDown c.PI (if s.odom_set_ = false then msg.yaw else s.prev_phi_) fuel a).map
            (odomResult m s msg)) := by
  unfold odomCallback odomResult
  cases ho : s.odom_set_
  · simp only [if_true]
    cases unwrapUp c.PI msg.yaw fuel msg.yaw with
    | none => rfl
    | some a =>
      simp only [Option.some_bind]
      cases unwrapDown c.PI msg.yaw fuel a with
      | none => rfl
      | some b => simp
  · simp only [Bool.true_eq_false, if_false]
    cases unwrapUp c.PI s.prev_phi_ fuel msg.yaw with
    | none => rfl
    | some a =>
      simp only [Option.some_bind]
      cases unwrapDown c.PI s.prev_phi_ fuel a with
      | none => rfl
      | some b => simp [ho]

/-- More fuel does not change a result of `odomCallback`. -/
theorem odomCallback_mono (m : Libm α) (c : Consts α) (fuel : ℕ) (s s' : Server α)
    (msg : Odometry α) (h : odomCallback m c fuel s msg = some s') (n : ℕ) :
    odomCallback m c (fuel + n) s msg = some s' := by
  rw [odomCallback_eq] at h ⊢
  cases hu : unwrapUp c.PI (if s.odom_set_ = false then msg.yaw else s.prev_phi_) fuel msg.yaw with
  | none => simp [hu] at h
  | some a =>
    rw [hu] at h
    simp only [Option.some_bind] at h
    cases hd : unwrapDown c.PI (if s.odom_set_ = false then msg.yaw else s.prev_phi_) fuel a with
    | none => simp [hd] at h
    | some b =>
      rw [hd] at h
      rw [unwrapUp_mono _ _ _ _ _ hu n]
      simp only [Option.some_bind]
      rw [unwrapDown_mono _ _ _ _ _ hd n]
      exact h

/-- With a positive `PI` the loops of `odomCallback` stop, and the heading `phi` they
leave in `curr_phi_` is within `(-PI, PI]` of the previous heading and a whole number of
turns away from the raw one. -/
theorem odomCallback_terminates [Archimedean α] (m : Libm α) (c : Consts α) (hPI : 0 < c.PI)
    (s : Server α) (msg : Odometry α) :
    ∃ (fuel0 : ℕ) (phi : α),
      (∀ fuel, fuel0 ≤ fuel → odomCallback m c fuel s msg = some (odomResult m s msg phi))
      ∧ -c.PI < phi - (if s.odom_set_ = false then msg.yaw else s.prev_phi_)
      ∧ phi - (if s.odom_set_ = false then msg.yaw else s.prev_phi_) ≤ c.PI
      ∧ ∃ k : ℤ, phi = msg.yaw + k * (2 * c.PI) := by
  obtain ⟨ku, hu1, hu2, hu3⟩ :=
    unwrapUp_spec c.PI (if s.odom_set_ = false then msg.yaw else s.prev_phi_) hPI msg.yaw
  obtain ⟨kd, hd1, hd2, hd3⟩ :=
    unwrapDown_spec c.PI (if s.odom_set_ = false then msg.yaw else s.prev_phi_) hPI
      (msg.yaw + ku * (2 * c.PI))
  refine ⟨max ku kd + 1, msg.yaw + ku * (2 * c.PI) - kd * (2 * c.PI), ?_, ?_, hd2, ?_⟩
  · intro fuel hf
    have h1 : ku < fuel := lt_of_le_of_lt (le_max_left ku kd) (by omega)
    have h2 : kd < fuel := lt_of_le_of_lt (le_max_right ku kd) (by omega)
    rw [odomCallback_eq, hu1 fuel h1]
    simp only [Option.some_bind]
    rw [hd1 fuel h2]
    rfl
  · rcases hd3 with hd3 | hd3
    · subst hd3
      simp only [Nat.cast_zero, zero_mul, sub_zero] at hd2 ⊢
      linarith
    · exact hd3
  · refine ⟨(ku : ℤ) - (kd : ℤ), ?_⟩
    push_cast
    ring

/-- Every result of `odomCallback` has the closed form `odomResult`. -/
theorem odomCallback_some (m : Libm α) (c : Consts α) (fuel : ℕ) (s s' : Server α)
    (msg : Odometry α) (h : odomCallback m c fuel s msg = some s') :
    ∃ phi, s' = odomResult m s msg phi := by
  rw [odomCallback_eq] at h
  cases hu : unwrapUp c.PI (if s.odom_set_ = false then msg.yaw else s.prev_phi_) fuel msg.yaw with
  | none => simp [hu] at h
  | some a =>
    rw [hu] at h
    simp only [Option.some_bind] at h
    cases hd : unwrapDown c.PI (if s.odom_set_ = false then msg.yaw else s.prev_phi_) fuel a with
    | none => simp [hd] at h
    | some b =>
      rw [hd] at h
      exact ⟨b, (Option.some.inj h).symm⟩

/-- A run of `odomCallback` keeps the origin. -/
theorem odomCallbacks_start (m : Libm α) (c : Consts α) (fuel : ℕ) :
    ∀ (samples : List (Odometry α)) (s s' : Server α),
      odomCallbacks m c fuel s samples = some s' →
        s'.start_x_ = s.start_x_ ∧ s'.start_y_ = s.start_y_ ∧ s'.start_phi_ = s.start_phi_ := by
  intro samples
  induction samples with
  | nil =>
    intro s s' h
    simp only [odomCallbacks, Option.some.injEq] at h
    subst h
    exact ⟨rfl, rfl, rfl⟩
  | cons msg rest ih =>
    intro s s' h
    unfold odomCallbacks at h
    cases h1 : odomCallback m c fuel s msg with
    | none => simp [h1] at h
    | some s1 =>
      rw [h1] at h
      obtain ⟨phi, hphi⟩ := odomCallback_some m c fuel s s1 msg h1
      obtain ⟨hx, hy, hp⟩ := ih s1 s' h
      rw [hx, hy, hp, hphi]
      exact ⟨rfl, rfl, rfl⟩

/-- A run over `samples ++ [last]` is a run over `samples` followed by one call. -/
theorem odomCallbacks_append_last (m : Libm α) (c : Consts α) (fuel : ℕ) (last : Odometry α) :
    ∀ (samples : List (Odometry α)) (s s' : Server α),
      odomCallbacks m c fuel s (samples ++ [last]) = some s' →
        ∃ s1, odomCallbacks m c fuel s samples = some s1
          ∧ odomCallback m c fuel s1 last = some s' := by
  intro samples
  induction samples with
  | nil =>
    intro s s' h
    refine ⟨s, rfl, ?_⟩
    simp only [List.nil_append, odomCallbacks] at h
    cases h1 : odomCallback m c fuel s last with
    | none => simp [h1] at h
    | some s1 =>
      rw [h1] at h
      simpa using h
  | cons msg rest ih =>
    intro s s' h
    simp only [List.cons_append, odomCallbacks] at h
    cases h1 : odomCallback m c fuel s msg with
    | none => simp [h1] at h
    | some s1 =>
      rw [h1] at h
      obtain ⟨s2, h2, h3⟩ := ih s1 s' h
      refine ⟨s2, ?_, h3⟩
      simp only [odomCallbacks, h1]
      exact h2

/-- With a positive `PI` every run of `odomCallback` over a list of samples returns, for
every large enough fuel. -/
theorem odomCallbacks_terminates [Archimedean α] (m : Libm α) (c : Consts α)
    (hPI : 0 < c.PI) :
    ∀ (samples : List (Odometry α)) (s : Server α),
      ∃ (fuel0 : ℕ) (s' : Server α),
        ∀ fuel, fuel0 ≤ fuel → odomCallbacks m c fuel s samples = some s' := by
  intro samples
  induction samples with
  | nil => intro s; exact ⟨0, s, fun _ _ => rfl⟩
  | cons msg rest ih =>
    intro s
    obtain ⟨f1, phi, h1, -⟩ := odomCallback_terminates m c hPI s msg
    obtain ⟨f2, s', h2⟩ := ih (odomResult m s msg phi)
    refine ⟨max f1 f2, s', ?_⟩
    intro fuel hf
    simp only [odomCallbacks, h1 fuel (le_trans (le_max_left f1 f2) hf)]
    exact h2 fuel (le_trans (le_max_right f1 f2) hf)

/-! ## Claims about odomCallback -/

/-- C4: for every previous heading and every raw heading the two loops of `odomCallback`
stop (for a positive `PI`): the call returns for every large enough fuel, always with the
same members, and the amount `delta` added to `dist_rotated_` satisfies
`-PI < delta ≤ PI` and `delta = (raw heading - previous heading) + k * (2 * PI)` for an
integer `k`.  The previous heading is `prev_phi_`, or the raw heading itself on the first
sample. -/
theorem odomCallback_unwrap_delta [Archimedean α] (m : Libm α) (c : Consts α)
    (hPI : 0 < c.PI) (s : Server α) (msg : Odometry α) :
    ∃ (fuel0 : ℕ) (s' : Server α),
      (∀ fuel, fuel0 ≤ fuel → odomCallback m c fuel s msg = some s')
      ∧ (∀ fuel s'', odomCallback m c fuel s msg = some s'' → s'' = s')
      ∧ s'.dist_rotated_ = s.dist_rotated_
          + (s'.curr_phi_ - (if s.odom_set_ = false then msg.yaw else s.prev_phi_))
      ∧ -c.PI < s'.curr_phi_ - (if s.odom_set_ = false then msg.yaw else s.prev_phi_)
      ∧ s'.curr_phi_ - (if s.odom_set_ = false then msg.yaw else s.prev_phi_) ≤ c.PI
      ∧ ∃ k : ℤ, s'.curr_phi_ - (if s.odom_set_ = false then msg.yaw else s.prev_phi_)
          = (msg.yaw - (if s.odom_set_ = false then msg.yaw else s.prev_phi_))
            + k * (2 * c.PI) := by
  obtain ⟨fuel0, phi, hrun, hlo, hhi, k, hk⟩ := odomCallback_terminates m c hPI s msg
  refine ⟨fuel0, odomResult m s msg phi, hrun, ?_, rfl, hlo, hhi, k, ?_⟩
  · intro fuel s'' h
    have h1 := odomCallback_mono m c fuel s s'' msg h fuel0
    rw [hrun (fuel + fuel0) (Nat.le_add_left _ _)] at h1
    exact (Option.some.inj h1).symm
  · show phi - _ = _
    rw [hk]
    ring

/-- Witness of `odomCallback_unwrap_delta`: the real functions, `PI = π`, a server whose
previous heading is 0 and a sample with raw heading 7. -/
theorem odomCallback_unwrap_delta_witness :
    ∃ (fuel0 : ℕ) (s' : Server ℝ),
      (∀ fuel, fuel0 ≤ fuel →
        odomCallback ⟨Real.sqrt, Real.sin, Real.cos, Real.arctan⟩ (sampleConsts Real.pi 1 1)
          fuel (movingServer MovementType.ROTATIONAL 0 0 1 0 0 0) ⟨0, 0, 7⟩ = some s')
      ∧ -Real.pi < s'.curr_phi_ - 0 ∧ s'.curr_phi_ - 0 ≤ Real.pi
      ∧ ∃ k : ℤ, s'.curr_phi_ - 0 = (7 - 0) + k * (2 * Real.pi) := by
  obtain ⟨fuel0, s', h1, -, -, h2, h3, h4⟩ :=
    odomCallback_unwrap_delta ⟨Real.sqrt, Real.sin, Real.cos, Real.arctan⟩
      (sampleConsts Real.pi 1 1) Real.pi_pos
      (movingServer MovementType.ROTATIONAL 0 0 1 0 0 0) ⟨0, 0, 7⟩
  exact ⟨fuel0, s', h1, h2, h3, h4⟩

/-- C5: after every odometry sample `(x, y, heading)`, with `dx = x - start_x_` and
`dy = y - start_y_`, the displacement is `(dx, dy)` rotated by `-start_phi_`:
`dist_moved_x_ = dx * cos start_phi_ + dy * sin start_phi_` and
`dist_moved_y_ = -dx * sin start_phi_ + dy * cos start_phi_`, so its norm is that of
`(dx, dy)`, and it is the same for every heading of the sample.  The call returns when
`PI` is positive. -/
theorem odomCallback_goal_frame (m : Libm ℝ) (hm : m.IsReal) (c : Consts ℝ) (hPI : 0 < c.PI)
    (s : Server ℝ) (msg : Odometry ℝ) :
    (∃ fuel s', odomCallback m c fuel s msg = some s')
    ∧ ∀ fuel s', odomCallback m c fuel s msg = some s' →
        s'.dist_moved_x_ = (msg.x - s.start_x_) * Real.cos s.start_phi_
            + (msg.y - s.start_y_) * Real.sin s.start_phi_
        ∧ s'.dist_moved_y_ = -(msg.x - s.start_x_) * Real.sin s.start_phi_
            + (msg.y - s.start_y_) * Real.cos s.start_phi_
        ∧ s'.dist_moved_x_ ^ 2 + s'.dist_moved_y_ ^ 2
            = (msg.x - s.start_x_) ^ 2 + (msg.y - s.start_y_) ^ 2
        ∧ ∀ heading fuel2 s2,
            odomCallback m c fuel2 s { msg with yaw := heading } = some s2 →
              s2.dist_moved_x_ = s'.dist_moved_x_ ∧ s2.dist_moved_y_ = s'.dist_moved_y_ := by
  obtain ⟨-, hsin, hcos, -⟩ := hm
  constructor
  · obtain ⟨fuel0, phi, hrun, -⟩ := odomCallback_terminates m c hPI s msg
    exact ⟨fuel0, _, hrun fuel0 le_rfl⟩
  · intro fuel s' h
    obtain ⟨phi, rfl⟩ := odomCallback_some m c fuel s s' msg h
    have hx : (odomResult m s msg phi).dist_moved_x_
        = (msg.x - s.start_x_) * Real.cos s.start_phi_
          + (msg.y - s.start_y_) * Real.sin s.start_phi_ := by
      simp only [odomResult, hsin, hcos, Real.cos_neg, Real.sin_neg]
      ring
    have hy : (odomResult m s msg phi).dist_moved_y_
        = -(msg.x - s.start_x_) * Real.sin s.start_phi_
          + (msg.y - s.start_y_) * Real.cos s.start_phi_ := by
      simp only [odomResult, hsin, hcos, Real.cos_neg, Real.sin_neg]
      ring
    refine ⟨hx, hy, ?_, ?_⟩
    · rw [hx, hy]
      have := Real.sin_sq_add_cos_sq s.start_phi_
      nlinarith [this]
    · intro heading fuel2 s2 h2
      obtain ⟨phi2, rfl⟩ := odomCallback_some m c fuel2 s s2 _ h2
      exact ⟨rfl, rfl⟩

/-- Witness of `odomCallback_goal_frame`: the real functions, `PI = π`, the constructed
server and the sample (1, 2, 7). -/
theorem odomCallback_goal_frame_witness :
    ∃ fuel s',
      odomCallback ⟨Real.sqrt, Real.sin, Real.cos, Real.arctan⟩ (sampleConsts Real.pi 1 1)
        fuel (init : Server ℝ) ⟨1, 2, 7⟩ = some s' :=
  (odomCallback_goal_frame ⟨Real.sqrt, Real.sin, Real.cos, Real.arctan⟩
    ⟨fun _ _ => rfl, rfl, rfl, rfl⟩
    (sampleConsts Real.pi 1 1) Real.pi_pos init ⟨1, 2, 7⟩).1

/-- C6: a goal is accepted at the pose `P = (curr_x_, curr_y_, curr_phi_)`; after any run
of odometry samples that ends with a sample at the x and y of `P`, `dist_moved_x_ = 0` and
`dist_moved_y_ = 0`, whatever the headings of `P` and of the samples.  The run returns
when `PI` is positive. -/
theorem odomCallbacks_round_trip [Archimedean α] (m : Libm α) (c : Consts α)
    (hPI : 0 < c.PI) (s : Server α) (goal : MotionGoal α)
    (hacc : (acceptNewGoal s goal).1 = true)
    (samples : List (Odometry α)) (last : Odometry α)
    (hx : last.x = s.curr_x_) (hy : last.y = s.curr_y_) :
    (∃ fuel s', odomCallbacks m c fuel (acceptNewGoal s goal).2 (samples ++ [last]) = some s')
    ∧ ∀ fuel s', odomCallbacks m c fuel (acceptNewGoal s goal).2 (samples ++ [last]) = some s' →
        s'.dist_moved_x_ = 0 ∧ s'.dist_moved_y_ = 0 := by
  constructor
  · obtain ⟨fuel0, s', h⟩ :=
      odomCallbacks_terminates m c hPI (samples ++ [last]) (acceptNewGoal s goal).2
    exact ⟨fuel0, s', h fuel0 le_rfl⟩
  · intro fuel s' h
    obtain ⟨s1, h1, h2⟩ := odomCallbacks_append_last m c fuel last samples _ s' h
    obtain ⟨hsx, hsy, -⟩ := odomCallbacks_start m c fuel samples _ s1 h1
    obtain ⟨phi, rfl⟩ := odomCallback_some m c fuel s1 s' last h2
    obtain ⟨mt, tt, ic, ad, -, -, -, -, hs⟩ := acceptNewGoal_snd_of_accepted s goal hacc
    rw [hs] at hsx hsy
    simp only at hsx hsy
    simp only [odomResult, hsx, hsy, hx, hy, sub_self, zero_mul, add_zero, and_self]

/-- Witness of `odomCallbacks_round_trip`: the real functions, `PI = π`; a goal of one
metre is accepted at the origin, the robot is seen at (1, 0) with heading 2 and then back
at (0, 0) with heading 5. -/
theorem odomCallbacks_round_trip_witness :
    ∃ fuel s',
      odomCallbacks ⟨Real.sqrt, Real.sin, Real.cos, Real.arctan⟩ (sampleConsts Real.pi 1 1)
        fuel (acceptNewGoal { (init : Server ℝ) with odom_set_ := true } ⟨1, 0, 0, 0, 0, 0, 0⟩).2
        ([⟨1, 0, 2⟩] ++ [⟨0, 0, 5⟩]) = some s' :=
  (odomCallbacks_round_trip ⟨Real.sqrt, Real.sin, Real.cos, Real.arctan⟩
    (sampleConsts Real.pi 1 1) Real.pi_pos { (init : Server ℝ) with odom_set_ := true }
    ⟨1, 0, 0, 0, 0, 0, 0⟩ (by rw [acceptNewGoal_fst]; decide) [⟨1, 0, 2⟩] ⟨0, 0, 5⟩ rfl rfl).1

/-! ## controlLoop: lemmas -/

/-- `signedVel` does not read the command and the feedback. -/
theorem signedVel_frame (m : Libm α) (c : Consts α) (s : Server α) (cmd : CmdVel α)
    (fb : Feedback α) :
    signedVel m c { s with cmd_vel_msg_ := cmd, feedback_ := fb } = signedVel m c s := rfl

/-- The command stored by `controlLoop` is the sign-corrected one. -/
theorem controlLoop_cmd (m : Libm α) (c : Consts α) (s : Server α) :
    (controlLoop m c s).cmd_vel_msg_
      = ⟨(signedVel m c s).vel_x, (signedVel m c s).vel_y, (signedVel m c s).vel_phi⟩ := by
  unfold controlLoop setCmdVel
  simp only [signedVel_frame]
  split_ifs with h
  · obtain ⟨h1, h2, h3⟩ := h
    simp [h1, h2, h3]
  · rfl

/-- The state stored by `controlLoop`. -/
theorem controlLoop_state (m : Libm α) (c : Consts α) (s : Server α) :
    (controlLoop m c s).state_
      = if (signedVel m c s).vel_x = 0 ∧ (signedVel m c s).vel_y = 0
            ∧ (signedVel m c s).vel_phi = 0 then State.FINISHED else s.state_ := by
  unfold controlLoop setCmdVel
  simp only [signedVel_frame]
  split_ifs with h <;> rfl

/-- The speed of `case TRANSLATIONAL` is non-negative when the argument of the last
square root is. -/
theorem translationalSpeed_nonneg (m : Libm ℝ) (hm : m.IsReal) (s : Server ℝ)
    (hmax : 0 < s.max_linear_vel_) (hacc : 0 < s.linear_acc_)
    (hrad : 0 ≤ decelRadicand s (distDriven m s) (distRes m s)) :
    0 ≤ translationalSpeed m s (distDriven m s) (distRes m s) := by
  unfold translationalSpeed
  split_ifs with h1 h2
  · have harg : 0 ≤ s.min_linear_vel_ ^ 2 + 2 * s.linear_acc_ * distDriven m s := by
      have := h1.1
      have h0 : 0 ≤ distDriven m s := this
      positivity
    rw [hm.1 _ harg]
    exact Real.sqrt_nonneg _
  · exact hmax.le
  · rw [hm.1 _ hrad]
    exact Real.sqrt_nonneg _

/-- For every positive `VEL` and every `VEL_ANG`, a TranslationalRotational goal (1, 0, 4)
that has rotated by π gets a negative `vel_x`. -/
theorem coupled_vel_x_neg (vel vel_ang : ℝ) (hv : 0 < vel) :
    (signedVel ⟨Real.sqrt, Real.sin, Real.cos, Real.arctan⟩ (sampleConsts Real.pi vel vel_ang)
      (movingServer MovementType.TRANSLATIONAL_ROTATIONAL 1 0 4 0 0 Real.pi)).vel_x < 0 := by
  have hpi := Real.pi_pos
  simp only [signedVel, switchVel, movingServer, init, coupledVel, coupledD, coupledAlpha,
    coupledMin, coupledMax, sampleConsts]
  norm_num
  split_ifs <;> nlinarith

/-! ## Claims about controlLoop -/

/-- C8, on the code: a TangentialArc goal (1, 0, 0) at its start is in progress, the branch
of `case TANGENT` is the one executed, and the divisor `sin (rotation_goal_abs / 2)` of
the radius is 0: the division is not guarded. -/
theorem tangent_zero_heading_divisor :
    |(movingServer MovementType.TANGENT (1 : ℝ) 0 0 0 0 0).dist_moved_x_|
        < |(movingServer MovementType.TANGENT (1 : ℝ) 0 0 0 0 0).forward_goal_x_|
    ∧ tangentDivisor ⟨Real.sqrt, Real.sin, Real.cos, Real.arctan⟩
        (movingServer MovementType.TANGENT (1 : ℝ) 0 0 0 0 0) = 0
    ∧ (switchVel ⟨Real.sqrt, Real.sin, Real.cos, Real.arctan⟩ (sampleConsts Real.pi 1 1)
        (movingServer MovementType.TANGENT (1 : ℝ) 0 0 0 0 0)).vel_phi
      = (sampleConsts Real.pi 1 1).VEL
        / tangentRadius ⟨Real.sqrt, Real.sin, Real.cos, Real.arctan⟩
            (movingServer MovementType.TANGENT (1 : ℝ) 0 0 0 0 0) := by
  refine ⟨?_, ?_, ?_⟩
  · norm_num [movingServer, init]
  · simp [tangentDivisor, movingServer, init]
  · simp [switchVel, movingServer, init]

/-- C9, on the code: a Translational goal of one metre along x with the default parameters
(min 0.05, acc 0.2, percentage 0.1) that has driven 0.95 m is in progress, the speed is the
square root of the last branch, and the argument of that square root is -7/400. -/
theorem translational_decel_radicand_negative :
    |(movingServer MovementType.TRANSLATIONAL (1 : ℝ) 0 0 0.95 0 0).dist_moved_x_|
        < |(movingServer MovementType.TRANSLATIONAL (1 : ℝ) 0 0 0.95 0 0).forward_goal_x_|
    ∧ translationalSpeed ⟨Real.sqrt, Real.sin, Real.cos, Real.arctan⟩
        (movingServer MovementType.TRANSLATIONAL (1 : ℝ) 0 0 0.95 0 0)
        (distDriven ⟨Real.sqrt, Real.sin, Real.cos, Real.arctan⟩
          (movingServer MovementType.TRANSLATIONAL (1 : ℝ) 0 0 0.95 0 0))
        (distRes ⟨Real.sqrt, Real.sin, Real.cos, Real.arctan⟩
          (movingServer MovementType.TRANSLATIONAL (1 : ℝ) 0 0 0.95 0 0))
      = Real.sqrt (decelRadicand (movingServer MovementType.TRANSLATIONAL (1 : ℝ) 0 0 0.95 0 0)
        (distDriven ⟨Real.sqrt, Real.sin, Real.cos, Real.arctan⟩
          (movingServer MovementType.TRANSLATIONAL (1 : ℝ) 0 0 0.95 0 0))
        (distRes ⟨Real.sqrt, Real.sin, Real.cos, Real.arctan⟩
          (movingServer MovementType.TRANSLATIONAL (1 : ℝ) 0 0 0.95 0 0)))
    ∧ decelRadicand (movingServer MovementType.TRANSLATIONAL (1 : ℝ) 0 0 0.95 0 0)
        (distDriven ⟨Real.sqrt, Real.sin, Real.cos, Real.arctan⟩
          (movingServer MovementType.TRANSLATIONAL (1 : ℝ) 0 0 0.95 0 0))
        (distRes ⟨Real.sqrt, Real.sin, Real.cos, Real.arctan⟩
          (movingServer MovementType.TRANSLATIONAL (1 : ℝ) 0 0 0.95 0 0))
      = -(7 / 400) := by
  have hd : distDriven ⟨Real.sqrt, Real.sin, Real.cos, Real.arctan⟩
      (movingServer MovementType.TRANSLATIONAL (1 : ℝ) 0 0 0.95 0 0) = 0.95 := by
    simp only [distDriven, movingServer, init]
    rw [abs_zero, abs_of_pos (by norm_num : (0 : ℝ) < 0.95)]
    have h2 : (0.95 : ℝ) ^ 2 + 0 ^ 2 = 0.95 ^ 2 := by norm_num
    rw [h2, Real.sqrt_sq (by norm_num)]
  have hr : distRes ⟨Real.sqrt, Real.sin, Real.cos, Real.arctan⟩
      (movingServer MovementType.TRANSLATIONAL (1 : ℝ) 0 0 0.95 0 0) = 1 := by
    simp [distRes, movingServer, init]
  rw [hd, hr]
  refine ⟨?_, ?_, ?_⟩
  · norm_num [movingServer, init, abs_of_pos]
  · simp only [translationalSpeed, movingServer, init]
    norm_num
  · simp only [decelRadicand, movingServer, init]
    norm_num

/-- C10: one call of `controlLoop` stores FINISHED in `state_` exactly when the
sign-corrected command `(vel_x, vel_y, vel_phi)` it computed is (0, 0, 0), and then
`cmd_vel_msg_` is (0, 0, 0); otherwise `state_` keeps its value and `cmd_vel_msg_` is the
computed command.  So a state that was not FINISHED is FINISHED after the call if and only
if the command is zero. -/
theorem controlLoop_completion (m : Libm α) (c : Consts α) (s : Server α) :
    (controlLoop m c s).state_
        = (if (signedVel m c s).vel_x = 0 ∧ (signedVel m c s).vel_y = 0
              ∧ (signedVel m c s).vel_phi = 0 then State.FINISHED else s.state_)
    ∧ (controlLoop m c s).cmd_vel_msg_
        = (if (signedVel m c s).vel_x = 0 ∧ (signedVel m c s).vel_y = 0
              ∧ (signedVel m c s).vel_phi = 0 then ⟨0, 0, 0⟩
          else ⟨(signedVel m c s).vel_x, (signedVel m c s).vel_y, (signedVel m c s).vel_phi⟩)
    ∧ ((controlLoop m c s).state_ = State.FINISHED ↔
        ((signedVel m c s).vel_x = 0 ∧ (signedVel m c s).vel_y = 0
            ∧ (signedVel m c s).vel_phi = 0) ∨ s.state_ = State.FINISHED) := by
  refine ⟨controlLoop_state m c s, ?_, ?_⟩
  · rw [controlLoop_cmd]
    split_ifs with h
    · obtain ⟨h1, h2, h3⟩ := h
      rw [h1, h2, h3]
    · rfl
  · rw [controlLoop_state]
    split_ifs with h
    · simp [h]
    · simp [h]

/-! ## TranslationalRotational case: lemmas -/

/-- `coupledVel` in terms of `coupledLinearSpeed` and `coupledAngularSpeed`. -/
theorem coupledVel_eq (m : Libm α) (c : Consts α) (s : Server α) :
    coupledVel m c s =
      ⟨coupledLinearSpeed c (coupledD m s) s.rotation_goal_
          (m.sqrt (s.dist_moved_x_ ^ 2 + s.dist_moved_y_ ^ 2))
          * m.cos (coupledAlpha m c s - s.dist_rotated_),
        coupledLinearSpeed c (coupledD m s) s.rotation_goal_
          (m.sqrt (s.dist_moved_x_ ^ 2 + s.dist_moved_y_ ^ 2))
          * m.sin (coupledAlpha m c s - s.dist_rotated_),
        coupledAngularSpeed c (coupledD m s) s.rotation_goal_ s.dist_rotated_⟩ := rfl

/-! ## Claims about the Rotational case and about execute -/

/-- `controlLoop` does not read `max_angular_vel_`: the computed command is the same for
every value of it. -/
theorem signedVel_max_angular_vel (m : Libm α) (c : Consts α) (s : Server α) (x : α) :
    signedVel m c { s with max_angular_vel_ := x } = signedVel m c s := rfl

/-- The command computed in `case ROTATIONAL`. -/
theorem signedVel_rotational (m : Libm α) (c : Consts α) (s : Server α)
    (hmt : s.movement_type_ = MovementType.ROTATIONAL) :
    signedVel m c s =
      if |s.dist_rotated_| < |s.rotation_goal_| then
        ⟨0, 0, if s.rotation_goal_ < 0 then -c.VEL_ANG else c.VEL_ANG⟩
      else ⟨0, 0, 0⟩ := by
  unfold signedVel switchVel
  rw [hmt]
  by_cases hp : |s.dist_rotated_| < |s.rotation_goal_|
  · simp [hp]
  · simp [hp]

/-- C11, as stated, fails: a Rotational goal of 1 rad at its start, with the default
`max_angular_vel_ = 0.2` and `VEL_ANG = 1`, is in progress and gets `|vel_phi| = 1`, the
constant, not the parameter. -/
theorem rotational_speed_not_parameter :
    |(movingServer MovementType.ROTATIONAL (0 : ℝ) 0 1 0 0 0).dist_rotated_|
        < |(movingServer MovementType.ROTATIONAL (0 : ℝ) 0 1 0 0 0).rotation_goal_|
    ∧ |(signedVel ⟨Real.sqrt, Real.sin, Real.cos, Real.arctan⟩ (sampleConsts Real.pi 1 1)
        (movingServer MovementType.ROTATIONAL 0 0 1 0 0 0)).vel_phi| = 1
    ∧ (movingServer MovementType.ROTATIONAL (0 : ℝ) 0 1 0 0 0).max_angular_vel_ = 0.2 := by
  refine ⟨?_, ?_, rfl⟩
  · norm_num [movingServer, init]
  · rw [signedVel_rotational _ _ _ rfl]
    norm_num [movingServer, init, sampleConsts]

/-- C11, amended: for a Rotational goal the command of `controlLoop` has `vel_x = 0` and
`vel_y = 0`; while `|dist_rotated_| < |rotation_goal_|` its angular speed `|vel_phi|` is
the constant `VEL_ANG` of the header (taken positive) and `state_` keeps its value;
otherwise `vel_phi = 0` and `state_` becomes FINISHED.  The command stored in
`cmd_vel_msg_` is this command.  The parameter `max_angular_vel_` is not read. -/
theorem rotational_profile (m : Libm α) (c : Consts α) (s : Server α)
    (hVA : 0 < c.VEL_ANG) (hmt : s.movement_type_ = MovementType.ROTATIONAL) :
    (signedVel m c s).vel_x = 0 ∧ (signedVel m c s).vel_y = 0
    ∧ (|s.dist_rotated_| < |s.rotation_goal_| →
        |(signedVel m c s).vel_phi| = c.VEL_ANG ∧ (controlLoop m c s).state_ = s.state_)
    ∧ (¬ |s.dist_rotated_| < |s.rotation_goal_| →
        (signedVel m c s).vel_phi = 0 ∧ (controlLoop m c s).state_ = State.FINISHED)
    ∧ (controlLoop m c s).cmd_vel_msg_
        = ⟨(signedVel m c s).vel_x, (signedVel m c s).vel_y, (signedVel m c s).vel_phi⟩ := by
  have hv := signedVel_rotational m c s hmt
  refine ⟨?_, ?_, ?_, ?_, controlLoop_cmd m c s⟩
  · rw [hv]; split_ifs <;> rfl
  · rw [hv]; split_ifs <;> rfl
  · intro hp
    rw [controlLoop_state, hv, if_pos hp]
    have habs : |(if s.rotation_goal_ < 0 then -c.VEL_ANG else c.VEL_ANG)| = c.VEL_ANG := by
      split_ifs
      · rw [abs_neg, abs_of_pos hVA]
      · exact abs_of_pos hVA
    refine ⟨habs, ?_⟩
    have hne : (if s.rotation_goal_ < 0 then -c.VEL_ANG else c.VEL_ANG) ≠ 0 := by
      intro h0
      rw [h0, abs_zero] at habs
      exact hVA.ne habs
    simp [hne]
  · intro hp
    rw [controlLoop_state, hv, if_neg hp]
    simp

/-- Witness of `rotational_profile`: the real functions, `VEL_ANG = 1` and a Rotational
goal of 1 rad at its start. -/
theorem rotational_profile_witness :
    |(signedVel ⟨Real.sqrt, Real.sin, Real.cos, Real.arctan⟩ (sampleConsts Real.pi 1 1)
        (movingServer MovementType.ROTATIONAL (0 : ℝ) 0 1 0 0 0)).vel_phi|
      = (sampleConsts Real.pi (1 : ℝ) 1).VEL_ANG :=
  ((rotational_profile ⟨Real.sqrt, Real.sin, Real.cos, Real.arctan⟩ (sampleConsts Real.pi 1 1)
    (movingServer MovementType.ROTATIONAL (0 : ℝ) 0 1 0 0 0)
    (by norm_num [sampleConsts]) rfl).2.2.1 (by norm_num [movingServer, init])).1

/-- On a rejected goal `acceptNewGoal` leaves `cmd_vel_msg_` and `state_` as they are. -/
theorem acceptNewGoal_rejected_cmd (s : Server α) (goal : MotionGoal α)
    (h : (acceptNewGoal s goal).1 = false) :
    (acceptNewGoal s goal).2.cmd_vel_msg_ = s.cmd_vel_msg_
    ∧ (acceptNewGoal s goal).2.state_ = s.state_ := by
  rw [acceptNewGoal_fst] at h
  unfold acceptNewGoal
  cases ho : s.odom_set_
  · simp
  · rw [ho] at h
    cases hmt : movementTypeOfInt goal.movement_type
    · simp
    · rw [hmt] at h
      cases htt : taskTypeOfInt goal.task_type
      · simp
      · rw [htt] at h
        cases hic : interruptionConditionOfInt goal.interruption_condition
        · simp
        · rw [hic] at h
          cases had : alignmentDeviceOfInt goal.alignment_device
          · simp
          · rw [had] at h
            simp at h

/-- For every state and every replacement goal that `acceptNewGoal` rejects, the pass of
the loop of `execute` that sees the preemption returns at once: nothing is published or
reported, and `cmd_vel_msg_` and `state_` are what they were. -/
theorem executeLoopBody_rejected (m : Libm α) (c : Consts α) (s : Server α)
    (goal : MotionGoal α) (h : (acceptNewGoal s goal).1 = false) :
    (executeLoopBody m c s true (some goal)).exit = LoopExit.RETURN_REJECTED
    ∧ (executeLoopBody m c s true (some goal)).published = []
    ∧ (executeLoopBody m c s true (some goal)).server.cmd_vel_msg_ = s.cmd_vel_msg_
    ∧ (executeLoopBody m c s true (some goal)).server.state_ = s.state_ := by
  obtain ⟨h1, h2⟩ := acceptNewGoal_rejected_cmd s goal h
  have hb : executeLoopBody m c s true (some goal)
      = ⟨(acceptNewGoal s goal).2, LoopExit.RETURN_REJECTED, []⟩ := by
    simp [executeLoopBody, h]
  rw [hb]
  exact ⟨rfl, rfl, h1, h2⟩

/-- C12, on the code: a server in MOVING whose stored command is (0.1, 0, 0) is preempted
by a goal with `movement_type = 9`.  `acceptNewGoal` rejects the goal and the pass of the
loop of `execute` returns with nothing published and nothing reported; `cmd_vel_msg_` is
still (0.1, 0, 0) and `state_` is still MOVING.  The cancel path and the shutdown path do
set the command to (0, 0, 0). -/
theorem execute_rejected_preemption_keeps_command :
    (executeLoopBody ⟨Real.sqrt, Real.sin, Real.cos, Real.arctan⟩ (sampleConsts Real.pi 1 1)
        (setCmdVel (movingServer MovementType.TRANSLATIONAL 1 0 0 0.5 0 0) 0.1 0 0) true
        (some ⟨1, 0, 0, 9, 0, 0, 0⟩)).exit = LoopExit.RETURN_REJECTED
    ∧ (executeLoopBody ⟨Real.sqrt, Real.sin, Real.cos, Real.arctan⟩ (sampleConsts Real.pi 1 1)
        (setCmdVel (movingServer MovementType.TRANSLATIONAL 1 0 0 0.5 0 0) 0.1 0 0) true
        (some ⟨1, 0, 0, 9, 0, 0, 0⟩)).published = []
    ∧ (executeLoopBody ⟨Real.sqrt, Real.sin, Real.cos, Real.arctan⟩ (sampleConsts Real.pi 1 1)
        (setCmdVel (movingServer MovementType.TRANSLATIONAL 1 0 0 0.5 0 0) 0.1 0 0) true
        (some ⟨1, 0, 0, 9, 0, 0, 0⟩)).server.cmd_vel_msg_ = ⟨0.1, 0, 0⟩
    ∧ (executeLoopBody ⟨Real.sqrt, Real.sin, Real.cos, Real.arctan⟩ (sampleConsts Real.pi 1 1)
        (setCmdVel (movingServer MovementType.TRANSLATIONAL 1 0 0 0.5 0 0) 0.1 0 0) true
        (some ⟨1, 0, 0, 9, 0, 0, 0⟩)).server.state_ = State.MOVING
    ∧ (executeLoopBody ⟨Real.sqrt, Real.sin, Real.cos, Real.arctan⟩ (sampleConsts Real.pi 1 1)
        (setCmdVel (movingServer MovementType.TRANSLATIONAL 1 0 0 0.5 0 0) 0.1 0 0) true
        none).server.cmd_vel_msg_ = ⟨0, 0, 0⟩
    ∧ (executeShutdown
        (setCmdVel (movingServer MovementType.TRANSLATIONAL (1 : ℝ) 0 0 0.5 0 0) 0.1 0
          0)).1.cmd_vel_msg_ = ⟨0, 0, 0⟩ :=
  ⟨rfl, rfl, rfl, rfl, rfl, rfl⟩

theorem coupledAlphaChecked_eq (m : Libm α) (c : Consts α) (s : Server α) :
    coupledAlphaChecked m c s = some (coupledAlpha m c s) := by
  unfold coupledAlphaChecked coupledAlpha
  by_cases h : s.forward_goal_x_ = 0
  · simp [h]
  · simp [h, checkedDiv]

theorem coupledMinChecked_eq (c : Consts α) (d phi : α) :
    coupledMinChecked c d phi = some (coupledMin c d phi) := by
  unfold coupledMinChecked coupledMin
  by_cases hphi : phi = 0 <;> by_cases hd : d = 0 <;> simp [checkedDiv, hphi, hd]

theorem coupledMaxChecked_eq (c : Consts α) (d phi : α) :
    coupledMaxChecked c d phi = some (coupledMax c d phi) := by
  unfold coupledMaxChecked coupledMax
  by_cases hphi : phi = 0 <;> by_cases hd : d = 0 <;> simp [checkedDiv, hphi, hd]

/-- The divisor of `K` and of `kapa` is not zero when `d` (resp. `phi`) is not. -/
theorem blend_divisor_ne_zero (x : α) (hx : x ≠ 0) :
    ((20 : α) / 100) * (1 - (20 : α) / 100) * x ^ 2 ≠ 0 := by
  have h2 : x ^ 2 ≠ 0 := pow_ne_zero 2 hx
  have h3 : ((20 : α) / 100) * (1 - (20 : α) / 100) ≠ 0 := by norm_num
  exact mul_ne_zero h3 h2

/-- No division of `case TRANSLATIONAL_ROTATIONAL` is executed on a zero divisor: the
checked body returns, with the value of the unchecked one. -/
theorem coupledVelChecked_eq (m : Libm α) (c : Consts α) (s : Server α) :
    coupledVelChecked m c s = some (coupledVel m c s) := by
  simp only [coupledVelChecked, coupledAlphaChecked_eq, coupledMinChecked_eq,
    coupledMaxChecked_eq, Option.some_bind]
  by_cases hd : coupledD m s = 0 <;> by_cases hphi : s.rotation_goal_ = 0
  · simp [hd, hphi, coupledVel]
  · have h := blend_divisor_ne_zero _ hphi
    simp [hd, hphi, coupledVel, checkedDiv, h]
  · have h := blend_divisor_ne_zero _ hd
    simp [hd, hphi, coupledVel, checkedDiv, h]
  · have h := blend_divisor_ne_zero _ hd
    have h2 := blend_divisor_ne_zero _ hphi
    simp [hd, hphi, coupledVel, checkedDiv, h, h2]

/-- The command computed in `case TRANSLATIONAL_ROTATIONAL`, before the sign
corrections. -/
theorem switchVel_coupled (m : Libm α) (c : Consts α) (s : Server α)
    (hmt : s.movement_type_ = MovementType.TRANSLATIONAL_ROTATIONAL) :
    switchVel m c s =
      if |s.dist_moved_x_| < |s.forward_goal_x_| ∨ |s.dist_moved_y_| < |s.forward_goal_y_|
          ∨ |s.dist_rotated_| < |s.rotation_goal_| then coupledVel m c s
      else ⟨0, 0, 0⟩ := by
  unfold switchVel
  rw [hmt]

/-! ## Claims about the TranslationalRotational case -/

/-- C13: in `case TRANSLATIONAL_ROTATIONAL` every division by `d`, by `phi`, by
`pow (d, 2)` or by `pow (phi, 2)` (and the one by `forward_goal_x_`) is executed on a
non-zero divisor: the body with checked divisions returns, and returns the command of the
body itself.  When `d = 0` the command has `vel_x = 0` and `vel_y = 0`, and when
`phi = 0` it has `vel_phi = 0`; so has the command stored in `cmd_vel_msg_`. -/
theorem coupled_divisions_guarded (m : Libm α) (c : Consts α) (s : Server α)
    (hmt : s.movement_type_ = MovementType.TRANSLATIONAL_ROTATIONAL) :
    coupledVelChecked m c s = some (coupledVel m c s)
    ∧ (coupledD m s = 0 →
        ((signedVel m c s).vel_x = 0 ∧ (signedVel m c s).vel_y = 0)
        ∧ ((controlLoop m c s).cmd_vel_msg_.linear_x = 0
          ∧ (controlLoop m c s).cmd_vel_msg_.linear_y = 0))
    ∧ (s.rotation_goal_ = 0 →
        (signedVel m c s).vel_phi = 0 ∧ (controlLoop m c s).cmd_vel_msg_.angular_z = 0) := by
  refine ⟨coupledVelChecked_eq m c s, ?_, ?_⟩
  · intro hd
    have h : (signedVel m c s).vel_x = 0 ∧ (signedVel m c s).vel_y = 0 := by
      unfold signedVel
      rw [switchVel_coupled m c s hmt, coupledVel_eq]
      simp only [hd, coupledLinearSpeed, if_true]
      split_ifs <;> simp
    refine ⟨h, ?_⟩
    rw [controlLoop_cmd]
    exact h
  · intro hphi
    have h : (signedVel m c s).vel_phi = 0 := by
      unfold signedVel
      rw [switchVel_coupled m c s hmt, coupledVel_eq]
      simp only [hphi, coupledAngularSpeed, if_true]
      split_ifs <;> simp
    refine ⟨h, ?_⟩
    rw [controlLoop_cmd]
    exact h

/-- Witness of `coupled_divisions_guarded`: the real functions and a TranslationalRotational
goal (0, 0, 1), for which `d = 0`. -/
theorem coupled_divisions_guarded_witness :
    (signedVel ⟨Real.sqrt, Real.sin, Real.cos, Real.arctan⟩ (sampleConsts Real.pi 1 1)
        (movingServer MovementType.TRANSLATIONAL_ROTATIONAL (0 : ℝ) 0 1 0 0 0)).vel_x = 0
    ∧ (signedVel ⟨Real.sqrt, Real.sin, Real.cos, Real.arctan⟩ (sampleConsts Real.pi 1 1)
        (movingServer MovementType.TRANSLATIONAL_ROTATIONAL (0 : ℝ) 0 1 0 0 0)).vel_y = 0 :=
  ((coupled_divisions_guarded ⟨Real.sqrt, Real.sin, Real.cos, Real.arctan⟩
    (sampleConsts Real.pi 1 1)
    (movingServer MovementType.TRANSLATIONAL_ROTATIONAL (0 : ℝ) 0 1 0 0 0) rfl).2.1
    (by simp [coupledD, movingServer, init])).1

/-- C14: for `d ≠ 0` and `phi ≠ 0` the derived pairs keep the ratio of the goal:
`V_min * phi = omega_min * d` and `V_max * phi = omega_max * d`. -/
theorem coupled_bounds_ratio (m : Libm α) (c : Consts α) (s : Server α)
    (hd : coupledD m s ≠ 0) (hphi : s.rotation_goal_ ≠ 0) :
    (coupledMin c (coupledD m s) s.rotation_goal_).1 * s.rotation_goal_
        = (coupledMin c (coupledD m s) s.rotation_goal_).2 * coupledD m s
    ∧ (coupledMax c (coupledD m s) s.rotation_goal_).1 * s.rotation_goal_
        = (coupledMax c (coupledD m s) s.rotation_goal_).2 * coupledD m s := by
  unfold coupledMin coupledMax
  simp only [hd, hphi, ne_eq, not_false_eq_true, if_true]
  constructor
  · split_ifs <;> field_simp
  · split_ifs <;> field_simp

/-- Witness of `coupled_bounds_ratio`: the real functions and a TranslationalRotational
goal (1, 0, 4). -/
theorem coupled_bounds_ratio_witness :
    (coupledMin (sampleConsts Real.pi 1 1)
        (coupledD ⟨Real.sqrt, Real.sin, Real.cos, Real.arctan⟩
          (movingServer MovementType.TRANSLATIONAL_ROTATIONAL (1 : ℝ) 0 4 0 0 0))
        (movingServer MovementType.TRANSLATIONAL_ROTATIONAL (1 : ℝ) 0 4 0 0 0).rotation_goal_).1
      * (movingServer MovementType.TRANSLATIONAL_ROTATIONAL (1 : ℝ) 0 4 0 0 0).rotation_goal_
    = (coupledMin (sampleConsts Real.pi 1 1)
        (coupledD ⟨Real.sqrt, Real.sin, Real.cos, Real.arctan⟩
          (movingServer MovementType.TRANSLATIONAL_ROTATIONAL (1 : ℝ) 0 4 0 0 0))
        (movingServer MovementType.TRANSLATIONAL_ROTATIONAL (1 : ℝ) 0 4 0 0 0).rotation_goal_).2
      * coupledD ⟨Real.sqrt, Real.sin, Real.cos, Real.arctan⟩
          (movingServer MovementType.TRANSLATIONAL_ROTATIONAL (1 : ℝ) 0 4 0 0 0) :=
  (coupled_bounds_ratio ⟨Real.sqrt, Real.sin, Real.cos, Real.arctan⟩ (sampleConsts Real.pi 1 1)
    (movingServer MovementType.TRANSLATIONAL_ROTATIONAL (1 : ℝ) 0 4 0 0 0)
    (by simp [coupledD, movingServer, init])
    (by norm_num [movingServer, init])).1

/-- C15: with the `K` of the code and `d ≠ 0`, the linear blend `K * s * (s - d) + V_min`
is `V_min` at `s = 0` and at `s = d` and is the cruise value `V_max` at the boundaries
`s = 0.2 d` and `s = 0.8 d` of the blend window, and these are the values of the local
`vel` there; likewise, with `kapa` and `phi ≠ 0`, the angular blend is `omega_min` at
`theta = 0` and `theta = phi` and `omega_max` at `theta = 0.2 phi` and
`theta = 0.8 phi`. -/
theorem coupled_blend_interpolates (c : Consts α) (d phi : α) :
    (d ≠ 0 →
      (coupledK c d phi * 0 * (0 - d) + (coupledMin c d phi).1 = (coupledMin c d phi).1
        ∧ coupledK c d phi * d * (d - d) + (coupledMin c d phi).1 = (coupledMin c d phi).1
        ∧ coupledK c d phi * (d * 20 / 100) * (d * 20 / 100 - d) + (coupledMin c d phi).1
            = (coupledMax c d phi).1
        ∧ coupledK c d phi * (d * (1 - 20 / 100)) * (d * (1 - 20 / 100) - d)
              + (coupledMin c d phi).1
            = (coupledMax c d phi).1)
      ∧ (coupledLinearSpeed c d phi 0 = (coupledMin c d phi).1
        ∧ coupledLinearSpeed c d phi d = (coupledMin c d phi).1
        ∧ coupledLinearSpeed c d phi (d * 20 / 100) = (coupledMax c d phi).1
        ∧ coupledLinearSpeed c d phi (d * (1 - 20 / 100)) = (coupledMax c d phi).1))
    ∧ (phi ≠ 0 →
      (coupledKapa c d phi * 0 * (0 - phi) + (coupledMin c d phi).2 = (coupledMin c d phi).2
        ∧ coupledKapa c d phi * phi * (phi - phi) + (coupledMin c d phi).2
            = (coupledMin c d phi).2
        ∧ coupledKapa c d phi * (phi * 20 / 100) * (phi * 20 / 100 - phi)
              + (coupledMin c d phi).2
            = (coupledMax c d phi).2
        ∧ coupledKapa c d phi * (phi * (1 - 20 / 100)) * (phi * (1 - 20 / 100) - phi)
              + (coupledMin c d phi).2
            = (coupledMax c d phi).2)
      ∧ (coupledAngularSpeed c d phi 0 = (coupledMin c d phi).2
        ∧ coupledAngularSpeed c d phi phi = (coupledMin c d phi).2
        ∧ coupledAngularSpeed c d phi (phi * 20 / 100) = (coupledMax c d phi).2
        ∧ coupledAngularSpeed c d phi (phi * (1 - 20 / 100)) = (coupledMax c d phi).2)) := by
  constructor
  · intro hd
    have hK : coupledK c d phi
        = ((coupledMin c d phi).1 - (coupledMax c d phi).1)
          / (((20 : α) / 100) * (1 - (20 : α) / 100) * d ^ 2) := by
      simp [coupledK, hd]
    have h0 : coupledK c d phi * 0 * (0 - d) + (coupledMin c d phi).1
        = (coupledMin c d phi).1 := by ring
    have h1 : coupledK c d phi * d * (d - d) + (coupledMin c d phi).1
        = (coupledMin c d phi).1 := by ring
    have h2 : coupledK c d phi * (d * 20 / 100) * (d * 20 / 100 - d) + (coupledMin c d phi).1
        = (coupledMax c d phi).1 := by
      rw [hK]
      field_simp
      ring
    have h3 : coupledK c d phi * (d * (1 - 20 / 100)) * (d * (1 - 20 / 100) - d)
          + (coupledMin c d phi).1 = (coupledMax c d phi).1 := by
      rw [hK]
      field_simp
      ring
    refine ⟨⟨h0, h1, h2, h3⟩, ?_, ?_, ?_, ?_⟩
    · have hc : (0 : α) ≤ d * 20 / 100 ∨ (0 : α) ≥ d * (1 - (20 : α) / 100) := by
        rcases le_total 0 d with h | h
        · left; positivity
        · right
          have : d * (1 - (20 : α) / 100) = d * (80 / 100) := by ring
          rw [this]
          exact mul_nonpos_of_nonpos_of_nonneg h (by norm_num)
      simp only [coupledLinearSpeed, hd, if_false, hc, if_true]
      exact h0
    · have hc : d ≤ d * 20 / 100 ∨ d ≥ d * (1 - (20 : α) / 100) := by
        rcases le_total 0 d with h | h
        · right
          show d * (1 - (20 : α) / 100) ≤ d
          nlinarith
        · left
          nlinarith
      simp only [coupledLinearSpeed, hd, if_false, hc, if_true]
      exact h1
    · have hc : d * 20 / 100 ≤ d * 20 / 100 ∨ d * 20 / 100 ≥ d * (1 - (20 : α) / 100) :=
        Or.inl le_rfl
      simp only [coupledLinearSpeed, hd, if_false, hc, if_true]
      exact h2
    · have hc : d * (1 - (20 : α) / 100) ≤ d * 20 / 100
          ∨ d * (1 - (20 : α) / 100) ≥ d * (1 - (20 : α) / 100) := Or.inr le_rfl
      simp only [coupledLinearSpeed, hd, if_false, hc, if_true]
      exact h3
  · intro hphi
    have hK : coupledKapa c d phi
        = ((coupledMin c d phi).2 - (coupledMax c d phi).2)
          / (((20 : α) / 100) * (1 - (20 : α) / 100) * phi ^ 2) := by
      simp [coupledKapa, hphi]
    have h0 : coupledKapa c d phi * 0 * (0 - phi) + (coupledMin c d phi).2
        = (coupledMin c d phi).2 := by ring
    have h1 : coupledKapa c d phi * phi * (phi - phi) + (coupledMin c d phi).2
        = (coupledMin c d phi).2 := by ring
    have h2 : coupledKapa c d phi * (phi * 20 / 100) * (phi * 20 / 100 - phi)
          + (coupledMin c d phi).2 = (coupledMax c d phi).2 := by
      rw [hK]
      field_simp
      ring
    have h3 : coupledKapa c d phi * (phi * (1 - 20 / 100)) * (phi * (1 - 20 / 100) - phi)
          + (coupledMin c d phi).2 = (coupledMax c d phi).2 := by
      rw [hK]
      field_simp
      ring
    refine ⟨⟨h0, h1, h2, h3⟩, ?_, ?_, ?_, ?_⟩
    · have hc : (0 : α) ≤ phi * 20 / 100 ∨ (0 : α) ≥ phi * (1 - (20 : α) / 100) := by
        rcases le_total 0 phi with h | h
        · left; positivity
        · right
          have : phi * (1 - (20 : α) / 100) = phi * (80 / 100) := by ring
          rw [this]
          exact mul_nonpos_of_nonpos_of_nonneg h (by norm_num)
      simp only [coupledAngularSpeed, hphi, if_false, hc, if_true]
      exact h0
    · have hc : phi ≤ phi * 20 / 100 ∨ phi ≥ phi * (1 - (20 : α) / 100) := by
        rcases le_total 0 phi with h | h
        · right
          show phi * (1 - (20 : α) / 100) ≤ phi
          nlinarith
        · left
          nlinarith
      simp only [coupledAngularSpeed, hphi, if_false, hc, if_true]
      exact h1
    · have hc : phi * 20 / 100 ≤ phi * 20 / 100
          ∨ phi * 20 / 100 ≥ phi * (1 - (20 : α) / 100) := Or.inl le_rfl
      simp only [coupledAngularSpeed, hphi, if_false, hc, if_true]
      exact h2
    · have hc : phi * (1 - (20 : α) / 100) ≤ phi * 20 / 100
          ∨ phi * (1 - (20 : α) / 100) ≥ phi * (1 - (20 : α) / 100) := Or.inr le_rfl
      simp only [coupledAngularSpeed, hphi, if_false, hc, if_true]
      exact h3

/-- Witness of `coupled_blend_interpolates`: `VEL = VEL_ANG = 1`, `d = 1` and `phi = 4`. -/
theorem coupled_blend_interpolates_witness :
    coupledLinearSpeed (sampleConsts (355 / 113 : ℚ) 1 1) 1 4 (1 * 20 / 100)
        = (coupledMax (sampleConsts (355 / 113 : ℚ) 1 1) 1 4).1
    ∧ coupledAngularSpeed (sampleConsts (355 / 113 : ℚ) 1 1) 1 4 (4 * 20 / 100)
        = (coupledMax (sampleConsts (355 / 113 : ℚ) 1 1) 1 4).2 :=
  ⟨((coupled_blend_interpolates (sampleConsts (355 / 113 : ℚ) 1 1) 1 4).1 (by norm_num)).2.2.2.1,
   ((coupled_blend_interpolates (sampleConsts (355 / 113 : ℚ) 1 1) 1 4).2 (by norm_num)).2.2.2.1⟩

/-- C19, as stated, fails.  With `VEL = VEL_ANG = 1`: the goal (1, 0, -1) has `d = 1`,
`V_min = 1/20` and `V_max = -1`, so `V_min ≤ V_max` fails; the goal (100, 0, 1) has
`d = 100`, `V_min = 5` and `V_max = 1`, so `V_min ≤ V_max` and `V_min ≤ VEL` fail, and the
goal (1, 0, 100) has `omega_min = 5` and `omega_max = 1`. -/
theorem coupled_bounds_not_ordered :
    (coupledD ⟨Real.sqrt, Real.sin, Real.cos, Real.arctan⟩
        (movingServer MovementType.TRANSLATIONAL_ROTATIONAL (1 : ℝ) 0 (-1) 0 0 0) = 1
      ∧ (coupledMin (sampleConsts Real.pi 1 1) 1 (-1)).1 = 1 / 20
      ∧ (coupledMax (sampleConsts Real.pi 1 1) 1 (-1)).1 = -1)
    ∧ (coupledD ⟨Real.sqrt, Real.sin, Real.cos, Real.arctan⟩
        (movingServer MovementType.TRANSLATIONAL_ROTATIONAL (100 : ℝ) 0 1 0 0 0) = 100
      ∧ (coupledMin (sampleConsts Real.pi 1 1) 100 1).1 = 5
      ∧ (coupledMax (sampleConsts Real.pi 1 1) 100 1).1 = 1)
    ∧ ((coupledMin (sampleConsts Real.pi 1 1) 1 100).2 = 5
      ∧ (coupledMax (sampleConsts Real.pi 1 1) 1 100).2 = 1) := by
  refine ⟨⟨?_, ?_, ?_⟩, ⟨?_, ?_, ?_⟩, ?_, ?_⟩
  · simp [coupledD, movingServer, init]
  · norm_num [coupledMin, sampleConsts]
  · norm_num [coupledMax, sampleConsts]
  · simp only [coupledD, movingServer, init]
    have h : (100 : ℝ) ^ 2 + 0 ^ 2 = 100 ^ 2 := by norm_num
    rw [h, Real.sqrt_sq (by norm_num)]
  · norm_num [coupledMin, sampleConsts]
  · norm_num [coupledMax, sampleConsts]
  · norm_num [coupledMin, sampleConsts]
  · norm_num [coupledMax, sampleConsts]

/-- For every positive `VEL` and `VEL_ANG` and every goal with `d > 0` and `phi < 0`,
`V_max` is negative and `V_min` is positive. -/
theorem coupled_bounds_negative_phi (c : Consts α) (d phi : α) (hV : 0 < c.VEL)
    (hVA : 0 < c.VEL_ANG) (hd : 0 < d) (hphi : phi < 0) :
    (coupledMax c d phi).1 < 0 ∧ 0 < (coupledMin c d phi).1 := by
  have ha : c.VEL_ANG * d / phi < 0 := div_neg_of_pos_of_neg (mul_pos hVA hd) hphi
  have hb : 0.05 * c.VEL_ANG * d / phi < 0 :=
    div_neg_of_pos_of_neg (mul_pos (mul_pos (by norm_num) hVA) hd) hphi
  have hV5 : (0 : α) < 0.05 * c.VEL := mul_pos (by norm_num) hV
  constructor
  · simp only [coupledMax, hphi.ne, hd.ne', ne_eq, not_false_eq_true, if_true]
    have : ¬ c.VEL_ANG * d / phi > c.VEL := by
      simp only [gt_iff_lt, not_lt]
      linarith
    simp only [this, if_false]
    exact ha
  · simp only [coupledMin, hphi.ne, hd.ne', ne_eq, not_false_eq_true, if_true]
    have : 0.05 * c.VEL_ANG * d / phi < 0.05 * c.VEL := by linarith
    simp only [this, if_true]
    exact hV5

/-- C19, amended: for `d > 0`, `phi ≠ 0` and positive `VEL`, `VEL_ANG` the derived bounds
satisfy `0.05 * VEL ≤ V_min` (so `0 ≤ V_min`), `V_max ≤ VEL` and `|omega_max| ≤ VEL_ANG`.
When moreover `phi > 0` and `VEL / 20 ≤ VEL_ANG * d / phi ≤ 20 * VEL`, the bounds are
ordered: `V_min ≤ V_max` and `|omega_min| ≤ |omega_max|`. -/
theorem coupled_bounds_within (m : Libm α) (c : Consts α) (s : Server α)
    (hV : 0 < c.VEL) (hVA : 0 < c.VEL_ANG) (hd : 0 < coupledD m s)
    (hphi : s.rotation_goal_ ≠ 0) :
    (0.05 * c.VEL ≤ (coupledMin c (coupledD m s) s.rotation_goal_).1
      ∧ 0 ≤ (coupledMin c (coupledD m s) s.rotation_goal_).1
      ∧ (coupledMax c (coupledD m s) s.rotation_goal_).1 ≤ c.VEL
      ∧ |(coupledMax c (coupledD m s) s.rotation_goal_).2| ≤ c.VEL_ANG)
    ∧ (0 < s.rotation_goal_ →
        c.VEL / 20 ≤ c.VEL_ANG * coupledD m s / s.rotation_goal_ →
        c.VEL_ANG * coupledD m s / s.rotation_goal_ ≤ 20 * c.VEL →
        (coupledMin c (coupledD m s) s.rotation_goal_).1
            ≤ (coupledMax c (coupledD m s) s.rotation_goal_).1
        ∧ |(coupledMin c (coupledD m s) s.rotation_goal_).2|
            ≤ |(coupledMax c (coupledD m s) s.rotation_goal_).2|) := by
  generalize coupledD m s = d at hd
  generalize s.rotation_goal_ = phi at hphi
  have hV5 : (0 : α) < 0.05 * c.VEL := mul_pos (by norm_num) hV
  have hVA5 : (0 : α) < 0.05 * c.VEL_ANG := mul_pos (by norm_num) hVA
  have hmin1 : 0.05 * c.VEL ≤ (coupledMin c d phi).1 := by
    simp only [coupledMin, hphi, hd.ne', ne_eq, not_false_eq_true, if_true]
    split_ifs with h
    · exact le_rfl
    · exact not_lt.mp h
  have hmax1 : (coupledMax c d phi).1 ≤ c.VEL := by
    simp only [coupledMax, hphi, hd.ne', ne_eq, not_false_eq_true, if_true]
    split_ifs with h
    · exact le_rfl
    · exact not_lt.mp h
  have hmax2 : |(coupledMax c d phi).2| ≤ c.VEL_ANG := by
    simp only [coupledMax, hphi, hd.ne', ne_eq, not_false_eq_true, if_true]
    split_ifs with h
    · -- `VEL_ANG * d / phi > VEL` forces `phi > 0`
      have hpos : 0 < phi := by
        by_contra hn
        have hneg : phi < 0 := lt_of_le_of_ne (not_lt.mp hn) hphi
        have : c.VEL_ANG * d / phi < 0 := div_neg_of_pos_of_neg (mul_pos hVA hd) hneg
        have h2 : c.VEL < c.VEL_ANG * d / phi := h
        linarith
      have h2 : c.VEL < c.VEL_ANG * d / phi := h
      rw [lt_div_iff₀ hpos] at h2
      have h3 : 0 ≤ c.VEL * phi / d := by positivity
      rw [abs_of_nonneg h3, div_le_iff₀ hd]
      linarith
    · exact (abs_of_pos hVA).le
  refine ⟨⟨hmin1, le_trans hV5.le hmin1, hmax1, hmax2⟩, ?_⟩
  intro hpos hlo hhi
  have hlo2 := (le_div_iff₀ hpos).mp hlo
  have hhi2 := (div_le_iff₀ hpos).mp hhi
  constructor
  · simp only [coupledMin, coupledMax, hphi, hd.ne', ne_eq, not_false_eq_true, if_true]
    have e1 : 0.05 * c.VEL_ANG * d / phi = 0.05 * (c.VEL_ANG * d / phi) := by ring
    split_ifs with h1 h2 h2
    · linarith
    · linarith
    · have h2' : c.VEL < c.VEL_ANG * d / phi := h2
      rw [e1]
      linarith
    · rw [e1]
      have : 0 < c.VEL_ANG * d / phi := by positivity
      linarith
  · simp only [coupledMin, coupledMax, hphi, hd.ne', ne_eq, not_false_eq_true, if_true]
    have hb : 0 < c.VEL * phi / d := by positivity
    have e2 : 0.05 * c.VEL * phi / d = 0.05 * (c.VEL * phi / d) := by ring
    have hb_lo : c.VEL_ANG / 20 ≤ c.VEL * phi / d := by
      rw [le_div_iff₀ hd]
      linarith
    have hb_hi : c.VEL * phi / d ≤ 20 * c.VEL_ANG := by
      rw [div_le_iff₀ hd]
      linarith
    split_ifs with h1 h2 h2
    · rw [e2, abs_of_pos (mul_pos (by norm_num) hb), abs_of_pos hb]
      linarith
    · rw [e2, abs_of_pos (mul_pos (by norm_num) hb), abs_of_pos hVA]
      linarith
    · rw [abs_of_pos hVA5, abs_of_pos hb]
      linarith
    · rw [abs_of_pos hVA5, abs_of_pos hVA]
      linarith

/-- Witness of `coupled_bounds_within`: the real functions, `VEL = VEL_ANG = 1` and a
TranslationalRotational goal (1, 0, 4). -/
theorem coupled_bounds_within_witness :
    (coupledMax (sampleConsts Real.pi 1 1)
        (coupledD ⟨Real.sqrt, Real.sin, Real.cos, Real.arctan⟩
          (movingServer MovementType.TRANSLATIONAL_ROTATIONAL (1 : ℝ) 0 4 0 0 0))
        (movingServer MovementType.TRANSLATIONAL_ROTATIONAL (1 : ℝ) 0 4 0 0 0).rotation_goal_).1
      ≤ (sampleConsts Real.pi (1 : ℝ) 1).VEL :=
  (coupled_bounds_within ⟨Real.sqrt, Real.sin, Real.cos, Real.arctan⟩
    (sampleConsts Real.pi 1 1)
    (movingServer MovementType.TRANSLATIONAL_ROTATIONAL (1 : ℝ) 0 4 0 0 0)
    (by norm_num [sampleConsts]) (by norm_num [sampleConsts])
    (by simp [coupledD, movingServer, init])
    (by norm_num [movingServer, init])).1.2.2.1

/-! ## Claims about the TangentialArc and Translational cases -/

/-- The command computed in `case TANGENT` while the goal is in progress, before the sign
corrections. -/
theorem switchVel_tangent (m : Libm α) (c : Consts α) (s : Server α)
    (hmt : s.movement_type_ = MovementType.TANGENT)
    (hp : |s.dist_moved_x_| < |s.forward_goal_x_| ∨ |s.dist_moved_y_| < |s.forward_goal_y_|
      ∨ |s.dist_rotated_| < |s.rotation_goal_|) :
    switchVel m c s = ⟨c.VEL, 0, c.VEL / tangentRadius m s⟩ := by
  unfold switchVel
  rw [hmt]
  simp only [hp, if_true]

/-- C16: for a TangentialArc goal in progress with `d = sqrt (move_x ^ 2 + move_y ^ 2) ≠ 0`,
`sin (move_phi / 2) ≠ 0` and a positive `VEL`, the command has `vel_y = 0` and
`vel_phi = |vel_x| / radius` with the signed `radius = 0.5 * d / sin (move_phi / 2)`, for
both signs of `move_phi`; the divisors of the code, `sin (|move_phi| / 2)` and its
`radius`, are not zero.  The command stored in `cmd_vel_msg_` is this command. -/
theorem tangent_curvature (m : Libm ℝ) (hm : m.IsReal) (c : Consts ℝ) (s : Server ℝ)
    (hmt : s.movement_type_ = MovementType.TANGENT)
    (hp : |s.dist_moved_x_| < |s.forward_goal_x_| ∨ |s.dist_moved_y_| < |s.forward_goal_y_|
      ∨ |s.dist_rotated_| < |s.rotation_goal_|)
    (hVEL : 0 < c.VEL)
    (hd : m.sqrt (s.forward_goal_x_ ^ 2 + s.forward_goal_y_ ^ 2) ≠ 0)
    (hsin : m.sin (s.rotation_goal_ / 2) ≠ 0) :
    (signedVel m c s).vel_y = 0
    ∧ (signedVel m c s).vel_phi
        = |(signedVel m c s).vel_x|
          / (0.5 * m.sqrt (s.forward_goal_x_ ^ 2 + s.forward_goal_y_ ^ 2)
              / m.sin (s.rotation_goal_ / 2))
    ∧ (tangentDivisor m s ≠ 0 ∧ tangentRadius m s ≠ 0)
    ∧ (controlLoop m c s).cmd_vel_msg_
        = ⟨(signedVel m c s).vel_x, (signedVel m c s).vel_y, (signedVel m c s).vel_phi⟩ := by
  have hsq : m.sqrt (|s.forward_goal_x_| ^ 2 + |s.forward_goal_y_| ^ 2)
      = m.sqrt (s.forward_goal_x_ ^ 2 + s.forward_goal_y_ ^ 2) := by
    rw [sq_abs, sq_abs]
  have hx : |(signedVel m c s).vel_x| = c.VEL := by
    unfold signedVel
    rw [switchVel_tangent m c s hmt hp]
    simp only
    split_ifs
    · rw [abs_neg, abs_of_pos hVEL]
    · exact abs_of_pos hVEL
  have hy : (signedVel m c s).vel_y = 0 := by
    unfold signedVel
    rw [switchVel_tangent m c s hmt hp]
    simp
  have hdiv : tangentDivisor m s
      = if s.rotation_goal_ < 0 then -m.sin (s.rotation_goal_ / 2)
        else m.sin (s.rotation_goal_ / 2) := by
    unfold tangentDivisor
    split_ifs with hneg
    · rw [abs_of_neg hneg, hm.2.1, neg_div, Real.sin_neg]
    · rw [abs_of_nonneg (not_lt.mp hneg)]
  have hdiv0 : tangentDivisor m s ≠ 0 := by
    rw [hdiv]
    split_ifs
    · exact neg_ne_zero.mpr hsin
    · exact hsin
  have hrad0 : tangentRadius m s ≠ 0 := by
    unfold tangentRadius
    rw [hsq]
    exact div_ne_zero (mul_ne_zero (by norm_num) hd) hdiv0
  refine ⟨hy, ?_, ⟨hdiv0, hrad0⟩, controlLoop_cmd m c s⟩
  rw [hx]
  unfold signedVel
  rw [switchVel_tangent m c s hmt hp]
  simp only
  unfold tangentRadius
  rw [hsq, hdiv]
  split_ifs with hneg
  · rw [div_neg, div_neg, neg_neg]
  · rfl

/-- Witness of `tangent_curvature`: the real functions, `VEL = 1` and a TangentialArc goal
(1, 0, -π) at its start. -/
theorem tangent_curvature_witness :
    (signedVel ⟨Real.sqrt, Real.sin, Real.cos, Real.arctan⟩ (sampleConsts Real.pi 1 1)
        (movingServer MovementType.TANGENT 1 0 (-Real.pi) 0 0 0)).vel_y = 0 :=
  (tangent_curvature ⟨Real.sqrt, Real.sin, Real.cos, Real.arctan⟩
    ⟨fun _ _ => rfl, rfl, rfl, rfl⟩ (sampleConsts Real.pi 1 1)
    (movingServer MovementType.TANGENT 1 0 (-Real.pi) 0 0 0) rfl
    (Or.inl (by norm_num [movingServer, init]))
    (by norm_num [sampleConsts])
    (by simp [movingServer, init])
    (by
      simp only [movingServer, init]
      rw [neg_div, Real.sin_neg, Real.sin_pi_div_two]
      norm_num)).1

/-- The command computed in `case TRANSLATIONAL`, before the sign corrections. -/
theorem switchVel_translational (m : Libm α) (c : Consts α) (s : Server α)
    (hmt : s.movement_type_ = MovementType.TRANSLATIONAL) :
    switchVel m c s =
      if |s.dist_moved_x_| < |s.forward_goal_x_| ∨ |s.dist_moved_y_| < |s.forward_goal_y_| then
        ⟨translationalSpeed m s (distDriven m s) (distRes m s) * m.cos (angRes m s),
          translationalSpeed m s (distDriven m s) (distRes m s) * m.sin (angRes m s), 0⟩
      else ⟨0, 0, 0⟩ := by
  unfold switchVel
  rw [hmt]

/-- The speed of `case TRANSLATIONAL` is at most `max_linear_vel_` when the acceleration
phase ends at or below it and the argument of the last square root is non-negative. -/
theorem translationalSpeed_le_max (m : Libm ℝ) (hm : m.IsReal) (s : Server ℝ)
    (hmin : 0 < s.min_linear_vel_) (hminmax : s.min_linear_vel_ ≤ s.max_linear_vel_)
    (hacc : 0 < s.linear_acc_)
    (hcap : s.min_linear_vel_ ^ 2 + 2 * s.linear_acc_ * (s.percentage_ * distRes m s)
      ≤ s.max_linear_vel_ ^ 2)
    (hrad : 0 ≤ decelRadicand s (distDriven m s) (distRes m s)) :
    translationalSpeed m s (distDriven m s) (distRes m s) ≤ s.max_linear_vel_ := by
  have hmax : 0 ≤ s.max_linear_vel_ := le_trans hmin.le hminmax
  have hdd : 0 ≤ distDriven m s := by
    unfold distDriven
    rw [hm.1 _ (by positivity)]
    exact Real.sqrt_nonneg _
  unfold translationalSpeed
  split_ifs with h1 h2
  · have harg : 0 ≤ s.min_linear_vel_ ^ 2 + 2 * s.linear_acc_ * distDriven m s := by
      positivity
    rw [hm.1 _ harg, Real.sqrt_le_iff]
    refine ⟨hmax, ?_⟩
    have := mul_le_mul_of_nonneg_left h1.2 (by linarith : 0 ≤ 2 * s.linear_acc_)
    linarith
  · exact le_rfl
  · rw [hm.1 _ hrad, Real.sqrt_le_iff]
    refine ⟨hmax, ?_⟩
    have hgt : (1 - s.percentage_) * distRes m s < distDriven m s := by
      by_contra hn
      have hle := not_lt.mp hn
      by_cases hc : distDriven m s ≤ s.percentage_ * distRes m s
      · exact h1 ⟨hdd, hc⟩
      · exact h2 ⟨not_le.mp hc, hle⟩
    unfold decelRadicand
    have h3 : 0 ≤ 2 * s.linear_acc_ * (distDriven m s - (1 - s.percentage_) * distRes m s) :=
      mul_nonneg (by linarith) (by linarith)
    have h4 : s.min_linear_vel_ ^ 2 ≤ s.max_linear_vel_ ^ 2 := by
      nlinarith [hmin, hminmax]
    linarith

/-- C17, on the code: a Translational goal of one metre along x with the default
parameters that has driven 0.95 m has not reached its target, and the x component of its
command is the square root of the deceleration branch taken on -7/400, times
`cos (atan (0 / 1))`: the command is not a velocity there. -/
theorem translational_command_before_target :
    |(movingServer MovementType.TRANSLATIONAL (1 : ℝ) 0 0 0.95 0 0).dist_moved_x_|
        < |(movingServer MovementType.TRANSLATIONAL (1 : ℝ) 0 0 0.95 0 0).forward_goal_x_|
    ∧ (signedVel ⟨Real.sqrt, Real.sin, Real.cos, Real.arctan⟩ (sampleConsts Real.pi 1 1)
        (movingServer MovementType.TRANSLATIONAL (1 : ℝ) 0 0 0.95 0 0)).vel_x
      = Real.sqrt (decelRadicand (movingServer MovementType.TRANSLATIONAL (1 : ℝ) 0 0 0.95 0 0)
          0.95 1) * Real.cos (Real.arctan (|0| / |1|))
    ∧ decelRadicand (movingServer MovementType.TRANSLATIONAL (1 : ℝ) 0 0 0.95 0 0) 0.95 1
      = -(7 / 400) := by
  have hd : distDriven ⟨Real.sqrt, Real.sin, Real.cos, Real.arctan⟩
      (movingServer MovementType.TRANSLATIONAL (1 : ℝ) 0 0 0.95 0 0) = 0.95 := by
    simp only [distDriven, movingServer, init]
    rw [abs_zero, abs_of_pos (by norm_num : (0 : ℝ) < 0.95)]
    have h2 : (0.95 : ℝ) ^ 2 + 0 ^ 2 = 0.95 ^ 2 := by norm_num
    rw [h2, Real.sqrt_sq (by norm_num)]
  have hr : distRes ⟨Real.sqrt, Real.sin, Real.cos, Real.arctan⟩
      (movingServer MovementType.TRANSLATIONAL (1 : ℝ) 0 0 0.95 0 0) = 1 := by
    simp [distRes, movingServer, init]
  have hp : |(movingServer MovementType.TRANSLATIONAL (1 : ℝ) 0 0 0.95 0 0).dist_moved_x_|
      < |(movingServer MovementType.TRANSLATIONAL (1 : ℝ) 0 0 0.95 0 0).forward_goal_x_| := by
    norm_num [movingServer, init, abs_of_pos]
  refine ⟨hp, ?_, ?_⟩
  · unfold signedVel
    rw [switchVel_translational _ _ _ rfl, if_pos (Or.inl hp), hd, hr]
    have hnot : ¬ (movingServer MovementType.TRANSLATIONAL (1 : ℝ) 0 0 0.95 0 0).forward_goal_x_
        < 0 := by
      norm_num [movingServer, init]
    simp only [hnot, if_false]
    have hs : translationalSpeed ⟨Real.sqrt, Real.sin, Real.cos, Real.arctan⟩
        (movingServer MovementType.TRANSLATIONAL (1 : ℝ) 0 0 0.95 0 0) 0.95 1
        = Real.sqrt (decelRadicand
            (movingServer MovementType.TRANSLATIONAL (1 : ℝ) 0 0 0.95 0 0) 0.95 1) := by
      simp only [translationalSpeed, movingServer, init]
      norm_num
    have ha : angRes ⟨Real.sqrt, Real.sin, Real.cos, Real.arctan⟩
        (movingServer MovementType.TRANSLATIONAL (1 : ℝ) 0 0 0.95 0 0)
        = Real.arctan (|0| / |1|) := by
      simp only [angRes, movingServer, init]
      rw [if_neg (by norm_num)]
    rw [hs, ha]
  · simp only [decelRadicand, movingServer, init]
    norm_num

/-- C20, as stated, fails: a Translational goal of one metre along x with the default
parameters (min 0.05, max 0.1, acc 0.2, percentage 0.1) that has driven 0.05 m is in the
acceleration phase and gets the command (3/20, 0, 0), of speed 0.15 above
`max_linear_vel_ = 0.1`. -/
theorem translational_speed_above_max :
    (signedVel ⟨Real.sqrt, Real.sin, Real.cos, Real.arctan⟩ (sampleConsts Real.pi 1 1)
        (movingServer MovementType.TRANSLATIONAL (1 : ℝ) 0 0 0.05 0 0)).vel_x = 3 / 20
    ∧ (signedVel ⟨Real.sqrt, Real.sin, Real.cos, Real.arctan⟩ (sampleConsts Real.pi 1 1)
        (movingServer MovementType.TRANSLATIONAL (1 : ℝ) 0 0 0.05 0 0)).vel_y = 0
    ∧ (movingServer MovementType.TRANSLATIONAL (1 : ℝ) 0 0 0.05 0 0).max_linear_vel_ = 1 / 10
    ∧ (movingServer MovementType.TRANSLATIONAL (1 : ℝ) 0 0 0.05 0 0).max_linear_vel_
        < Real.sqrt
          ((signedVel ⟨Real.sqrt, Real.sin, Real.cos, Real.arctan⟩ (sampleConsts Real.pi 1 1)
              (movingServer MovementType.TRANSLATIONAL (1 : ℝ) 0 0 0.05 0 0)).vel_x ^ 2
            + (signedVel ⟨Real.sqrt, Real.sin, Real.cos, Real.arctan⟩
                (sampleConsts Real.pi 1 1)
                (movingServer MovementType.TRANSLATIONAL (1 : ℝ) 0 0 0.05 0 0)).vel_y ^ 2) := by
  have hd : distDriven ⟨Real.sqrt, Real.sin, Real.cos, Real.arctan⟩
      (movingServer MovementType.TRANSLATIONAL (1 : ℝ) 0 0 0.05 0 0) = 0.05 := by
    simp only [distDriven, movingServer, init]
    rw [abs_zero, abs_of_pos (by norm_num : (0 : ℝ) < 0.05)]
    have h2 : (0.05 : ℝ) ^ 2 + 0 ^ 2 = 0.05 ^ 2 := by norm_num
    rw [h2, Real.sqrt_sq (by norm_num)]
  have hr : distRes ⟨Real.sqrt, Real.sin, Real.cos, Real.arctan⟩
      (movingServer MovementType.TRANSLATIONAL (1 : ℝ) 0 0 0.05 0 0) = 1 := by
    simp [distRes, movingServer, init]
  have ha : angRes ⟨Real.sqrt, Real.sin, Real.cos, Real.arctan⟩
      (movingServer MovementType.TRANSLATIONAL (1 : ℝ) 0 0 0.05 0 0) = 0 := by
    simp [angRes, movingServer, init]
  have hp : |(movingServer MovementType.TRANSLATIONAL (1 : ℝ) 0 0 0.05 0 0).dist_moved_x_|
      < |(movingServer MovementType.TRANSLATIONAL (1 : ℝ) 0 0 0.05 0 0).forward_goal_x_| := by
    norm_num [movingServer, init, abs_of_pos]
  have hs : translationalSpeed ⟨Real.sqrt, Real.sin, Real.cos, Real.arctan⟩
      (movingServer MovementType.TRANSLATIONAL (1 : ℝ) 0 0 0.05 0 0) 0.05 1 = 3 / 20 := by
    simp only [translationalSpeed, movingServer, init]
    rw [if_pos (by norm_num)]
    have h2 : (0.05 : ℝ) ^ 2 + 2 * 0.2 * 0.05 = (3 / 20) ^ 2 := by norm_num
    rw [h2, Real.sqrt_sq (by norm_num)]
  have hx : (signedVel ⟨Real.sqrt, Real.sin, Real.cos, Real.arctan⟩ (sampleConsts Real.pi 1 1)
      (movingServer MovementType.TRANSLATIONAL (1 : ℝ) 0 0 0.05 0 0)).vel_x = 3 / 20 := by
    unfold signedVel
    rw [switchVel_translational _ _ _ rfl, if_pos (Or.inl hp), hd, hr, ha, hs]
    norm_num [movingServer, init]
  have hy : (signedVel ⟨Real.sqrt, Real.sin, Real.cos, Real.arctan⟩ (sampleConsts Real.pi 1 1)
      (movingServer MovementType.TRANSLATIONAL (1 : ℝ) 0 0 0.05 0 0)).vel_y = 0 := by
    unfold signedVel
    rw [switchVel_translational _ _ _ rfl, if_pos (Or.inl hp), hd, hr, ha, hs]
    norm_num [movingServer, init]
  refine ⟨hx, hy, by norm_num [movingServer, init], ?_⟩
  rw [hx, hy]
  have h2 : ((3 : ℝ) / 20) ^ 2 + 0 ^ 2 = (3 / 20) ^ 2 := by norm_num
  rw [h2, Real.sqrt_sq (by norm_num)]
  norm_num [movingServer, init]

/-- C20, amended: for a Translational goal with `0 < min_linear_vel_ ≤ max_linear_vel_`
and `linear_acc_ > 0`, the commanded linear speed `sqrt (vel_x ^ 2 + vel_y ^ 2)` is at
most `max_linear_vel_` provided the acceleration phase ends at or below the cruise speed,
`min_linear_vel_ ^ 2 + 2 * linear_acc_ * percentage_ * dist_res ≤ max_linear_vel_ ^ 2`,
and the argument of the square root of the deceleration branch is non-negative.  The
command stored in `cmd_vel_msg_` has the same speed. -/
theorem translational_speed_le_max (m : Libm ℝ) (hm : m.IsReal) (c : Consts ℝ)
    (s : Server ℝ) (hmt : s.movement_type_ = MovementType.TRANSLATIONAL)
    (hmin : 0 < s.min_linear_vel_) (hminmax : s.min_linear_vel_ ≤ s.max_linear_vel_)
    (hacc : 0 < s.linear_acc_)
    (hcap : s.min_linear_vel_ ^ 2 + 2 * s.linear_acc_ * (s.percentage_ * distRes m s)
      ≤ s.max_linear_vel_ ^ 2)
    (hrad : 0 ≤ decelRadicand s (distDriven m s) (distRes m s)) :
    Real.sqrt ((signedVel m c s).vel_x ^ 2 + (signedVel m c s).vel_y ^ 2)
        ≤ s.max_linear_vel_
    ∧ Real.sqrt ((controlLoop m c s).cmd_vel_msg_.linear_x ^ 2
          + (controlLoop m c s).cmd_vel_msg_.linear_y ^ 2)
        ≤ s.max_linear_vel_ := by
  have hmax : 0 < s.max_linear_vel_ := lt_of_lt_of_le hmin hminmax
  have hv0 := translationalSpeed_nonneg m hm s hmax hacc hrad
  have hv1 := translationalSpeed_le_max m hm s hmin hminmax hacc hcap hrad
  have key : Real.sqrt ((signedVel m c s).vel_x ^ 2 + (signedVel m c s).vel_y ^ 2)
      ≤ s.max_linear_vel_ := by
    unfold signedVel
    rw [switchVel_translational m c s hmt]
    by_cases hp : |s.dist_moved_x_| < |s.forward_goal_x_|
        ∨ |s.dist_moved_y_| < |s.forward_goal_y_|
    · rw [if_pos hp]
      have hsq : ∀ (a b : ℝ) (p q : Prop) [Decidable p] [Decidable q],
          (if p then -a else a) ^ 2 + (if q then -b else b) ^ 2 = a ^ 2 + b ^ 2 := by
        intro a b p q _ _
        split_ifs <;> ring
      simp only
      rw [hsq, hm.2.1, hm.2.2.1]
      have hcs := Real.sin_sq_add_cos_sq (angRes m s)
      have e : (translationalSpeed m s (distDriven m s) (distRes m s)
            * Real.cos (angRes m s)) ^ 2
          + (translationalSpeed m s (distDriven m s) (distRes m s)
            * Real.sin (angRes m s)) ^ 2
          = translationalSpeed m s (distDriven m s) (distRes m s) ^ 2 := by
        have : ∀ v sn cs : ℝ, sn ^ 2 + cs ^ 2 = 1 → (v * cs) ^ 2 + (v * sn) ^ 2 = v ^ 2 := by
          intro v sn cs h
          calc (v * cs) ^ 2 + (v * sn) ^ 2 = v ^ 2 * (sn ^ 2 + cs ^ 2) := by ring
            _ = v ^ 2 := by rw [h, mul_one]
        exact this _ _ _ hcs
      rw [e, Real.sqrt_sq hv0]
      exact hv1
    · rw [if_neg hp]
      simp only
      have hz : ∀ (p q : Prop) [Decidable p] [Decidable q],
          (if p then -(0 : ℝ) else 0) ^ 2 + (if q then -(0 : ℝ) else 0) ^ 2 = 0 := by
        intro p q _ _
        split_ifs <;> norm_num
      rw [hz, Real.sqrt_zero]
      exact hmax.le
  refine ⟨key, ?_⟩
  rw [controlLoop_cmd]
  exact key

/-- Witness of `translational_speed_le_max`: the real functions and a Translational goal
of 1 cm along x at its start with the default parameters, for which
`0.05 ^ 2 + 2 * 0.2 * 0.1 * 0.01 ≤ 0.1 ^ 2`. -/
theorem translational_speed_le_max_witness :
    Real.sqrt
      ((signedVel ⟨Real.sqrt, Real.sin, Real.cos, Real.arctan⟩ (sampleConsts Real.pi 1 1)
          (movingServer MovementType.TRANSLATIONAL (0.01 : ℝ) 0 0 0 0 0)).vel_x ^ 2
        + (signedVel ⟨Real.sqrt, Real.sin, Real.cos, Real.arctan⟩ (sampleConsts Real.pi 1 1)
            (movingServer MovementType.TRANSLATIONAL (0.01 : ℝ) 0 0 0 0 0)).vel_y ^ 2)
      ≤ (movingServer MovementType.TRANSLATIONAL (0.01 : ℝ) 0 0 0 0 0).max_linear_vel_ := by
  have hr : distRes ⟨Real.sqrt, Real.sin, Real.cos, Real.arctan⟩
      (movingServer MovementType.TRANSLATIONAL (0.01 : ℝ) 0 0 0 0 0) = 0.01 := by
    simp only [distRes, movingServer, init]
    rw [abs_zero, abs_of_pos (by norm_num : (0 : ℝ) < 0.01)]
    have h2 : (0.01 : ℝ) ^ 2 + 0 ^ 2 = 0.01 ^ 2 := by norm_num
    rw [h2, Real.sqrt_sq (by norm_num)]
  have hd : distDriven ⟨Real.sqrt, Real.sin, Real.cos, Real.arctan⟩
      (movingServer MovementType.TRANSLATIONAL (0.01 : ℝ) 0 0 0 0 0) = 0 := by
    simp [distDriven, movingServer, init]
  exact (translational_speed_le_max ⟨Real.sqrt, Real.sin, Real.cos, Real.arctan⟩
    ⟨fun _ _ => rfl, rfl, rfl, rfl⟩ (sampleConsts Real.pi 1 1)
    (movingServer MovementType.TRANSLATIONAL (0.01 : ℝ) 0 0 0 0 0) rfl
    (by norm_num [movingServer, init]) (by norm_num [movingServer, init])
    (by norm_num [movingServer, init])
    (by rw [hr]; norm_num [movingServer, init])
    (by rw [hd, hr]; norm_num [decelRadicand, movingServer, init])).1

/-! ## Claims about the accumulated rotation -/

/-- With a positive `PI`, every result of `odomCallback` is `odomResult` at a heading a
whole number of turns away from the raw one. -/
theorem odomCallback_result [Archimedean α] (m : Libm α) (c : Consts α) (hPI : 0 < c.PI)
    (fuel : ℕ) (s s' : Server α) (msg : Odometry α)
    (h : odomCallback m c fuel s msg = some s') :
    ∃ k : ℤ, s' = odomResult m s msg (msg.yaw + k * (2 * c.PI)) := by
  obtain ⟨fuel0, phi, hrun, -, -, k, hk⟩ := odomCallback_terminates m c hPI s msg
  have h1 := odomCallback_mono m c fuel s s' msg h fuel0
  rw [hrun (fuel + fuel0) (Nat.le_add_left _ _)] at h1
  exact ⟨k, by rw [← hk]; exact (Option.some.inj h1).symm⟩

/-- Along a run of `odomCallback` that starts with odometry initialised,
`prev_phi_ = curr_phi_` and `dist_rotated_ = curr_phi_ - start_phi_` are kept, and
`curr_phi_` stays a whole number of turns away from the last raw heading. -/
theorem odomCallbacks_telescope [Archimedean α] (m : Libm α) (c : Consts α)
    (hPI : 0 < c.PI) (fuel : ℕ) :
    ∀ (samples : List (Odometry α)) (s s' : Server α) (raw : α),
      s.odom_set_ = true → s.prev_phi_ = s.curr_phi_ →
      s.dist_rotated_ = s.curr_phi_ - s.start_phi_ →
      (∃ k : ℤ, s.curr_phi_ = raw + k * (2 * c.PI)) →
      odomCallbacks m c fuel s samples = some s' →
        s'.prev_phi_ = s'.curr_phi_
        ∧ s'.dist_rotated_ = s'.curr_phi_ - s'.start_phi_
        ∧ ∃ k : ℤ, s'.curr_phi_ = lastYaw raw samples + k * (2 * c.PI) := by
  intro samples
  induction samples with
  | nil =>
    intro s s' raw _ hprev hrot hraw h
    simp only [odomCallbacks, Option.some.injEq] at h
    subst h
    exact ⟨hprev, hrot, hraw⟩
  | cons msg rest ih =>
    intro s s' raw hset hprev hrot _ h
    unfold odomCallbacks at h
    cases h1 : odomCallback m c fuel s msg with
    | none => simp [h1] at h
    | some s1 =>
      rw [h1] at h
      obtain ⟨k, hk⟩ := odomCallback_result m c hPI fuel s s1 msg h1
      have hset1 : s1.odom_set_ = true := by rw [hk]; rfl
      have hprev1 : s1.prev_phi_ = s1.curr_phi_ := by rw [hk]; rfl
      have hrot1 : s1.dist_rotated_ = s1.curr_phi_ - s1.start_phi_ := by
        rw [hk]
        simp only [odomResult, hset, Bool.true_eq_false, if_false]
        rw [hrot, hprev]
        ring
      have hraw1 : ∃ j : ℤ, s1.curr_phi_ = msg.yaw + j * (2 * c.PI) := ⟨k, by rw [hk]; rfl⟩
      exact ih s1 s' msg.yaw hset1 hprev1 hrot1 hraw1 h

/-- C18: a first odometry sample `first` is followed by an accepted goal and then by any
finite run of odometry samples.  The run returns (for a positive `PI`), and after it
`dist_rotated_ = curr_phi_ - start_phi_` and `prev_phi_ = curr_phi_`; hence
`dist_rotated_` is the last raw heading minus the raw heading at acceptance, plus a whole
number of turns `k * (2 * PI)`. -/
theorem dist_rotated_telescopes [Archimedean α] (m : Libm α) (c : Consts α)
    (hPI : 0 < c.PI) (s0 : Server α) (first : Odometry α) (goal : MotionGoal α)
    (hgoal : (0 ≤ goal.movement_type ∧ goal.movement_type ≤ 3)
      ∧ (0 ≤ goal.task_type ∧ goal.task_type ≤ 3)
      ∧ (0 ≤ goal.interruption_condition ∧ goal.interruption_condition ≤ 9)
      ∧ (0 ≤ goal.alignment_device ∧ goal.alignment_device ≤ 6))
    (samples : List (Odometry α)) :
    (∃ fuel s1 s', odomCallback m c fuel s0 first = some s1
        ∧ (acceptNewGoal s1 goal).1 = true
        ∧ odomCallbacks m c fuel (acceptNewGoal s1 goal).2 samples = some s')
    ∧ ∀ fuel1 fuel2 s1 s', odomCallback m c fuel1 s0 first = some s1 →
        (acceptNewGoal s1 goal).1 = true →
        odomCallbacks m c fuel2 (acceptNewGoal s1 goal).2 samples = some s' →
          s'.dist_rotated_ = s'.curr_phi_ - s'.start_phi_
          ∧ s'.prev_phi_ = s'.curr_phi_
          ∧ ∃ k : ℤ, s'.dist_rotated_
              = (lastYaw first.yaw samples - first.yaw) + k * (2 * c.PI) := by
  have hvalid : ∀ s1 : Server α, s1.odom_set_ = true → (acceptNewGoal s1 goal).1 = true := by
    intro s1 h1
    rw [acceptNewGoal_fst, h1]
    obtain ⟨g1, g2, g3, g4⟩ := hgoal
    rw [(movementTypeOfInt_isSome _).mpr g1, (taskTypeOfInt_isSome _).mpr g2,
      (interruptionConditionOfInt_isSome _).mpr g3, (alignmentDeviceOfInt_isSome _).mpr g4]
    rfl
  constructor
  · obtain ⟨f1, phi, h1, -⟩ := odomCallback_terminates m c hPI s0 first
    have hacc := hvalid (odomResult m s0 first phi) rfl
    obtain ⟨f2, s', h2⟩ := odomCallbacks_terminates m c hPI samples
      (acceptNewGoal (odomResult m s0 first phi) goal).2
    exact ⟨max f1 f2, odomResult m s0 first phi, s', h1 _ (le_max_left f1 f2), hacc,
      h2 _ (le_max_right f1 f2)⟩
  · intro fuel1 fuel2 s1 s' h1 hacc h2
    obtain ⟨k1, hk1⟩ := odomCallback_result m c hPI fuel1 s0 s1 first h1
    obtain ⟨mt, tt, ic, ad, -, -, -, -, hs⟩ := acceptNewGoal_snd_of_accepted s1 goal hacc
    have hcurr1 : s1.curr_phi_ = first.yaw + k1 * (2 * c.PI) := by rw [hk1]; rfl
    have hprev1 : s1.prev_phi_ = s1.curr_phi_ := by rw [hk1]; rfl
    have hset1 : s1.odom_set_ = true := by rw [hk1]; rfl
    have a1 : (acceptNewGoal s1 goal).2.odom_set_ = true := by rw [hs]; exact hset1
    have a2 : (acceptNewGoal s1 goal).2.prev_phi_ = (acceptNewGoal s1 goal).2.curr_phi_ := by
      rw [hs]; exact hprev1
    have a3 : (acceptNewGoal s1 goal).2.dist_rotated_
        = (acceptNewGoal s1 goal).2.curr_phi_ - (acceptNewGoal s1 goal).2.start_phi_ := by
      rw [hs]
      simp
    have a4 : ∃ k : ℤ, (acceptNewGoal s1 goal).2.curr_phi_ = first.yaw + k * (2 * c.PI) := by
      rw [hs]
      exact ⟨k1, hcurr1⟩
    have a5 : (acceptNewGoal s1 goal).2.start_phi_ = first.yaw + k1 * (2 * c.PI) := by
      rw [hs]
      exact hcurr1
    obtain ⟨r1, r2, k2, hk2⟩ :=
      odomCallbacks_telescope m c hPI fuel2 samples _ s' first.yaw a1 a2 a3 a4 h2
    obtain ⟨-, -, hstart⟩ := odomCallbacks_start m c fuel2 samples _ s' h2
    refine ⟨r2, r1, k2 - k1, ?_⟩
    rw [r2, hk2, hstart, a5]
    push_cast
    ring

/-- Witness of `dist_rotated_telescopes`: the real functions, `PI = π`; the constructed
server sees a first sample with heading 1, accepts a rotation goal of 2 rad and then sees
the headings 3 and 5. -/
theorem dist_rotated_telescopes_witness :
    ∃ fuel s1 s',
      odomCallback ⟨Real.sqrt, Real.sin, Real.cos, Real.arctan⟩ (sampleConsts Real.pi 1 1)
        fuel (init : Server ℝ) ⟨0, 0, 1⟩ = some s1
      ∧ (acceptNewGoal s1 ⟨0, 0, 2, 1, 0, 0, 0⟩).1 = true
      ∧ odomCallbacks ⟨Real.sqrt, Real.sin, Real.cos, Real.arctan⟩ (sampleConsts Real.pi 1 1)
        fuel (acceptNewGoal s1 ⟨0, 0, 2, 1, 0, 0, 0⟩).2 [⟨0, 0, 3⟩, ⟨0, 0, 5⟩] = some s' :=
  (dist_rotated_telescopes ⟨Real.sqrt, Real.sin, Real.cos, Real.arctan⟩
    (sampleConsts Real.pi 1 1) Real.pi_pos init ⟨0, 0, 1⟩ ⟨0, 0, 2, 1, 0, 0, 0⟩
    (by decide) [⟨0, 0, 3⟩, ⟨0, 0, 5⟩]).1

/-! ## Sign of the command -/

/-- The slip of `case TRANSLATIONAL_ROTATIONAL` for a negative `rotation_goal_`: the goal
(1, 0, -1) at its start gets the signed `omega = -1/20` from the branch, and the sign
correction after the `switch` negates it again, so the command (1/20, 0, 1/20) turns away
from the goal. -/
theorem coupled_omega_negated_twice :
    (switchVel ⟨Real.sqrt, Real.sin, Real.cos, Real.arctan⟩ (sampleConsts Real.pi 1 1)
        (movingServer MovementType.TRANSLATIONAL_ROTATIONAL 1 0 (-1) 0 0 0)).vel_phi = -(1 / 20)
    ∧ (signedVel ⟨Real.sqrt, Real.sin, Real.cos, Real.arctan⟩ (sampleConsts Real.pi 1 1)
        (movingServer MovementType.TRANSLATIONAL_ROTATIONAL 1 0 (-1) 0 0 0)).vel_phi = 1 / 20
    ∧ (signedVel ⟨Real.sqrt, Real.sin, Real.cos, Real.arctan⟩ (sampleConsts Real.pi 1 1)
        (movingServer MovementType.TRANSLATIONAL_ROTATIONAL 1 0 (-1) 0 0 0)).vel_x = 1 / 20 := by
  refine ⟨?_, ?_, ?_⟩
  · simp only [switchVel, movingServer, init, coupledVel, coupledD, coupledAlpha,
      coupledMin, coupledMax, sampleConsts]
    norm_num
  · simp only [signedVel, switchVel, movingServer, init, coupledVel, coupledD, coupledAlpha,
      coupledMin, coupledMax, sampleConsts]
    norm_num
  · simp only [signedVel, switchVel, movingServer, init, coupledVel, coupledD, coupledAlpha,
      coupledMin, coupledMax, sampleConsts]
    norm_num

/-- A Translational goal along y only, (0, 1, 0) at its start with the default parameters,
gets the command (0, 1/20, 0): `ang_res` is π/2 and the robot drives along y. -/
theorem translational_lateral_command :
    (signedVel ⟨Real.sqrt, Real.sin, Real.cos, Real.arctan⟩ (sampleConsts Real.pi 1 1)
        (movingServer MovementType.TRANSLATIONAL 0 1 0 0 0 0)).vel_x = 0
    ∧ (signedVel ⟨Real.sqrt, Real.sin, Real.cos, Real.arctan⟩ (sampleConsts Real.pi 1 1)
        (movingServer MovementType.TRANSLATIONAL 0 1 0 0 0 0)).vel_y = 1 / 20 := by
  have ha : angRes ⟨Real.sqrt, Real.sin, Real.cos, Real.arctan⟩
      (movingServer MovementType.TRANSLATIONAL (0 : ℝ) 1 0 0 0 0) = Real.pi / 2 := by
    simp only [angRes, movingServer, init, abs_zero, if_true, Real.arctan_one]
    ring
  have hd : distDriven ⟨Real.sqrt, Real.sin, Real.cos, Real.arctan⟩
      (movingServer MovementType.TRANSLATIONAL (0 : ℝ) 1 0 0 0 0) = 0 := by
    simp [distDriven, movingServer, init]
  have hr : distRes ⟨Real.sqrt, Real.sin, Real.cos, Real.arctan⟩
      (movingServer MovementType.TRANSLATIONAL (0 : ℝ) 1 0 0 0 0) = 1 := by
    simp [distRes, movingServer, init]
  have hp : |(movingServer MovementType.TRANSLATIONAL (0 : ℝ) 1 0 0 0 0).dist_moved_x_|
        < |(movingServer MovementType.TRANSLATIONAL (0 : ℝ) 1 0 0 0 0).forward_goal_x_|
      ∨ |(movingServer MovementType.TRANSLATIONAL (0 : ℝ) 1 0 0 0 0).dist_moved_y_|
        < |(movingServer MovementType.TRANSLATIONAL (0 : ℝ) 1 0 0 0 0).forward_goal_y_| :=
    Or.inr (by norm_num [movingServer, init])
  have hs : translationalSpeed ⟨Real.sqrt, Real.sin, Real.cos, Real.arctan⟩
      (movingServer MovementType.TRANSLATIONAL (0 : ℝ) 1 0 0 0 0) 0 1 = 1 / 20 := by
    simp only [translationalSpeed, movingServer, init]
    rw [if_pos (by norm_num)]
    have h2 : (0.05 : ℝ) ^ 2 + 2 * 0.2 * 0 = (1 / 20) ^ 2 := by norm_num
    rw [h2, Real.sqrt_sq (by norm_num)]
  constructor
  · unfold signedVel
    rw [switchVel_translational _ _ _ rfl, if_pos hp, hd, hr, ha, hs]
    simp [movingServer, init]
  · unfold signedVel
    rw [switchVel_translational _ _ _ rfl, if_pos hp, hd, hr, ha, hs]
    simp [movingServer, init]

end RobotinoMotion
